import Mathlib

/-!
# Text-to-image renderer (`script.js`): wrap, contrast, frame, export

A shallow embedding of `src/script.js`.

Modelling conventions
* A JavaScript string is a list of characters (`Str`).
* A JavaScript number is a rational (`ℚ`); `parseInt` of a slider value is an
  integer (`ℤ`), `NaN` is `none` where it can arise (`parseInt` of a colour
  channel).
* A 2D canvas context is a record of its drawing-state properties, a stack of
  saved states and the list of drawing operations issued so far, each
  operation carrying the drawing state in effect when it was issued.
  A property assignment stores the assigned value.
-/

namespace Emoji

/-- A JavaScript string, as the list of its characters. -/
abbrev Str := List Char

/-! ## String primitives used by the script -/

/-- Embeds `String.prototype.split(' ')`: cuts at every single space and keeps
empty fragments; the result is never empty (`''.split(' ')` is `['']`). -/
def split : Str → List Str
  | [] => [[]]
  | c :: cs =>
    if c = ' ' then [] :: split cs
    else
      match split cs with
      | [] => [[c]]
      | w :: ws => (c :: w) :: ws

/-- Embeds `Array.prototype.join(' ')`. -/
def joinSpace : List Str → Str
  | [] => []
  | [w] => w
  | w :: w2 :: ws => w ++ ' ' :: joinSpace (w2 :: ws)

/-! ## The greedy wrap loop (two textual copies in the source) -/

/-- Embeds the `for` loop of `updatePreview` (lines 127-136): `currentLine` and
`lines` are the loop variables, the list argument is `words[i..]`.  Returns the
final `lines` and `currentLine`. -/
def updatePreview_wrapLoop (measureText : Str → ℚ) (maxWidth : ℚ) :
    Str → List Str → List Str → List Str × Str
  | currentLine, [], lines => (lines, currentLine)
  | currentLine, word :: rest, lines =>
    let width := measureText (currentLine ++ ' ' :: word)
    if width < maxWidth then
      updatePreview_wrapLoop measureText maxWidth (currentLine ++ ' ' :: word) rest lines
    else
      updatePreview_wrapLoop measureText maxWidth word rest (lines ++ [currentLine])

/-- Embeds lines 123-137 of `updatePreview`: split, seed with `words[0]`, run
the loop, push the last line.  (`split` never returns the empty array; that
branch is kept only to make the match total.) -/
def updatePreview_wrap (measureText : Str → ℚ) (maxWidth : ℚ) (text : Str) : List Str :=
  match split text with
  | [] => []
  | w0 :: rest =>
    let r := updatePreview_wrapLoop measureText maxWidth w0 rest []
    r.1 ++ [r.2]

/-- Embeds the `for` loop of `downloadImage` (lines 326-335). -/
def downloadImage_wrapLoop (measureText : Str → ℚ) (maxWidth : ℚ) :
    Str → List Str → List Str → List Str × Str
  | currentLine, [], lines => (lines, currentLine)
  | currentLine, word :: rest, lines =>
    let width := measureText (currentLine ++ ' ' :: word)
    if width < maxWidth then
      downloadImage_wrapLoop measureText maxWidth (currentLine ++ ' ' :: word) rest lines
    else
      downloadImage_wrapLoop measureText maxWidth word rest (lines ++ [currentLine])

/-- Embeds lines 322-336 of `downloadImage`. -/
def downloadImage_wrap (measureText : Str → ℚ) (maxWidth : ℚ) (text : Str) : List Str :=
  match split text with
  | [] => []
  | w0 :: rest =>
    let r := downloadImage_wrapLoop measureText maxWidth w0 rest []
    r.1 ++ [r.2]

/-- The groups of tokens the loop forms: `g` is the group of tokens making up
`currentLine`, the list argument is the remaining tokens.  Used to state which
tokens each produced line consists of. -/
def wrapGroups (measureText : Str → ℚ) (maxWidth : ℚ) :
    List Str → List Str → List (List Str)
  | g, [] => [g]
  | g, word :: rest =>
    if measureText (joinSpace g ++ ' ' :: word) < maxWidth then
      wrapGroups measureText maxWidth (g ++ [word]) rest
    else
      g :: wrapGroups measureText maxWidth [word] rest

/-- Spec wording "whitespace-collapsed": every run of spaces is reduced to one
space. -/
def collapseSpaces : Str → Str
  | [] => []
  | [c] => [c]
  | c :: d :: cs =>
    if c = ' ' ∧ d = ' ' then collapseSpaces (d :: cs)
    else c :: collapseSpaces (d :: cs)

/-- Whether the text has no two adjacent spaces. -/
def noDoubleSpace : Str → Bool
  | [] => true
  | [_] => true
  | c :: d :: cs => !(c = ' ' && d = ' ') && noDoubleSpace (d :: cs)

/-! ## Contrast colour -/

/-- The characters `trim`, `\s` and `parseInt` treat as white space
(ECMAScript WhiteSpace and LineTerminator). -/
def isJSWhiteSpace (c : Char) : Bool :=
  let n := c.toNat
  n = 0x09 || n = 0x0A || n = 0x0B || n = 0x0C || n = 0x0D || n = 0x20 || n = 0xA0 ||
  n = 0x1680 || (0x2000 ≤ n && n ≤ 0x200A) || n = 0x2028 || n = 0x2029 || n = 0x202F ||
  n = 0x205F || n = 0x3000 || n = 0xFEFF

/-- Value of a hexadecimal digit, either case; `none` for any other character. -/
def hexDigitValue (c : Char) : Option ℕ :=
  let n := c.toNat
  if 48 ≤ n ∧ n ≤ 57 then some (n - 48)
  else if 97 ≤ n ∧ n ≤ 102 then some (n - 87)
  else if 65 ≤ n ∧ n ≤ 70 then some (n - 55)
  else none

/-- The UTF-16 code units of a string, which is what JavaScript indexes and
counts: one unit for a character of the basic plane, a surrogate pair for any
other character. -/
def utf16 : Str → List ℕ
  | [] => []
  | c :: cs =>
    if c.toNat < 0x10000 then c.toNat :: utf16 cs
    else
      (0xD800 + (c.toNat - 0x10000) / 0x400) :: (0xDC00 + (c.toNat - 0x10000) % 0x400)
        :: utf16 cs

/-- White space as `parseInt` sees it, on a code unit (same set as
`isJSWhiteSpace`). -/
def isWhiteSpaceUnit (n : ℕ) : Bool :=
  n = 0x09 || n = 0x0A || n = 0x0B || n = 0x0C || n = 0x0D || n = 0x20 || n = 0xA0 ||
  n = 0x1680 || (0x2000 ≤ n && n ≤ 0x200A) || n = 0x2028 || n = 0x2029 || n = 0x202F ||
  n = 0x205F || n = 0x3000 || n = 0xFEFF

/-- Value of the hexadecimal digit a code unit stands for, either case; `none`
for any other unit. -/
def hexDigitValueUnit (n : ℕ) : Option ℕ :=
  if 48 ≤ n ∧ n ≤ 57 then some (n - 48)
  else if 97 ≤ n ∧ n ≤ 102 then some (n - 87)
  else if 65 ≤ n ∧ n ≤ 70 then some (n - 55)
  else none

/-- Embeds `String.prototype.substr(start, length)` for non-negative
arguments, on the code units of the string. -/
def substr (s : List ℕ) (start length : ℕ) : List ℕ := (s.drop start).take length

/-- Embeds `parseInt(s, 16)` on the code units of `s`: skip leading white
space, read an optional sign (`-` is 45, `+` is 43), skip an optional `0x`/`0X`
(48, then 120 or 88), read the longest run of hexadecimal digits; `none` is
`NaN` (no digit read). -/
def parseInt16 (s : List ℕ) : Option ℤ :=
  let s1 := s.dropWhile isWhiteSpaceUnit
  let signed : ℤ × List ℕ :=
    match s1 with
    | n :: r => if n = 45 then (-1, r) else if n = 43 then (1, r) else (1, s1)
    | [] => (1, s1)
  let s3 : List ℕ :=
    match signed.2 with
    | a :: b :: r => if a = 48 ∧ (b = 120 ∨ b = 88) then r else signed.2
    | r => r
  let digits := s3.takeWhile (fun n => (hexDigitValueUnit n).isSome)
  if digits = [] then none
  else some (signed.1 * (digits.foldl (fun acc n => 16 * acc + (hexDigitValueUnit n).getD 0) 0 : ℕ))

/-- The local `brightness` of `getContrastColor` (lines 257-262); `none` is
`NaN`, which arises as soon as one channel is `NaN`. -/
def getContrastColor_brightness (hexColor : Str) : Option ℚ :=
  let r := parseInt16 (substr (utf16 hexColor) 1 2)
  let g := parseInt16 (substr (utf16 hexColor) 3 2)
  let b := parseInt16 (substr (utf16 hexColor) 5 2)
  match r, g, b with
  | some r, some g, some b => some (((r * 299) + (g * 587) + (b * 114)) / 1000)
  | _, _, _ => none

/-- Embeds `getContrastColor` (lines 255-266); `NaN > 128` is false. -/
def getContrastColor (hexColor : Str) : Str :=
  match getContrastColor_brightness hexColor with
  | some brightness => if brightness > 128 then "#000000".toList else "#FFFFFF".toList
  | none => "#FFFFFF".toList

/-- The hexadecimal digit of value `v`, in upper or lower case. -/
def hexChar (upper : Bool) (v : Fin 16) : Char :=
  (if upper then "0123456789ABCDEF" else "0123456789abcdef").toList.getD v.val '0'

/-! ## Canvas model -/

def CANVAS_WIDTH : ℚ := 400
def CANVAS_HEIGHT : ℚ := 200

/-- A stroke or fill style: a CSS colour string or a canvas gradient with its
geometry and colour stops. -/
inductive Paint where
  | color (c : Str)
  | linearGradient (x0 y0 x1 y1 : ℚ) (stops : List (ℚ × Str))
  | radialGradient (x0 y0 r0 x1 y1 r1 : ℚ) (stops : List (ℚ × Str))
  deriving DecidableEq

/-- The drawing state of a 2D context that `save`/`restore` cover, restricted
to the properties the script touches. -/
structure DrawState where
  strokeStyle : Paint
  fillStyle : Paint
  shadowColor : Str
  shadowBlur : ℚ
  lineWidth : ℚ
  lineDash : List ℚ
  font : Str
  textAlign : Str
  textBaseline : Str
  scale : ℚ × ℚ
  deriving DecidableEq

/-- A drawing operation, in logical units, with the drawing state in effect. -/
inductive DrawOp where
  | clearRect (x y w h : ℚ)
  | fillRect (x y w h : ℚ) (st : DrawState)
  | strokeRect (x y w h : ℚ) (st : DrawState)
  | fillText (text : Str) (x y : ℚ) (st : DrawState)
  deriving DecidableEq

/-- A 2D context: current drawing state, stack of saved states, operations
issued so far (oldest first). -/
structure Context where
  state : DrawState
  stack : List DrawState
  ops : List DrawOp
  deriving DecidableEq

/-- The drawing state of a freshly created 2D context. -/
def DrawState.initial : DrawState :=
  { strokeStyle := Paint.color "#000000".toList
    fillStyle := Paint.color "#000000".toList
    shadowColor := "rgba(0, 0, 0, 0)".toList
    shadowBlur := 0
    lineWidth := 1
    lineDash := []
    font := "10px sans-serif".toList
    textAlign := "start".toList
    textBaseline := "alphabetic".toList
    scale := (1, 1) }

/-- The context of a freshly created canvas. -/
def Context.fresh : Context := { state := DrawState.initial, stack := [], ops := [] }

def Context.save (c : Context) : Context := { c with stack := c.state :: c.stack }

def Context.restore (c : Context) : Context :=
  match c.stack with
  | [] => c
  | s :: rest => { c with state := s, stack := rest }

def Context.setState (c : Context) (f : DrawState → DrawState) : Context :=
  { c with state := f c.state }

def Context.emit (c : Context) (op : DrawOp) : Context := { c with ops := c.ops ++ [op] }

def Context.clearRect (c : Context) (x y w h : ℚ) : Context := c.emit (DrawOp.clearRect x y w h)

def Context.fillRect (c : Context) (x y w h : ℚ) : Context :=
  c.emit (DrawOp.fillRect x y w h c.state)

def Context.strokeRect (c : Context) (x y w h : ℚ) : Context :=
  c.emit (DrawOp.strokeRect x y w h c.state)

def Context.fillText (c : Context) (text : Str) (x y : ℚ) : Context :=
  c.emit (DrawOp.fillText text x y c.state)

def Context.scale (c : Context) (sx sy : ℚ) : Context :=
  c.setState fun s => { s with scale := (s.scale.1 * sx, s.scale.2 * sy) }

def createLinearGradient (x0 y0 x1 y1 : ℚ) : Paint := Paint.linearGradient x0 y0 x1 y1 []

def createRadialGradient (x0 y0 r0 x1 y1 r1 : ℚ) : Paint :=
  Paint.radialGradient x0 y0 r0 x1 y1 r1 []

def Paint.addColorStop : Paint → ℚ → Str → Paint
  | Paint.linearGradient x0 y0 x1 y1 stops, offset, c =>
    Paint.linearGradient x0 y0 x1 y1 (stops ++ [(offset, c)])
  | Paint.radialGradient x0 y0 r0 x1 y1 r1 stops, offset, c =>
    Paint.radialGradient x0 y0 r0 x1 y1 r1 (stops ++ [(offset, c)])
  | Paint.color k, _, _ => Paint.color k

/-! ## Frame renderer -/

/-- Embeds the `switch (style)` statement of `drawFrame` (lines 167-246). -/
def drawFrame_switch (context : Context) (color : Str) (width : ℚ) (style : Str) : Context :=
  if style = "gradient".toList then
    let gradient := createLinearGradient 0 0 CANVAS_WIDTH CANVAS_HEIGHT
    let gradient := gradient.addColorStop 0 "#667eea".toList
    let gradient := gradient.addColorStop 0.5 "#764ba2".toList
    let gradient := gradient.addColorStop 1 "#f093fb".toList
    context.setState fun s => { s with strokeStyle := gradient }
  else if style = "neon".toList then
    let context := context.setState fun s => { s with strokeStyle := Paint.color "#00ffff".toList }
    let context := context.setState fun s => { s with shadowColor := "#00ffff".toList }
    context.setState fun s => { s with shadowBlur := width }
  else if style = "vintage".toList then
    let context := context.setState fun s => { s with strokeStyle := Paint.color "#8b4513".toList }
    let context := context.setState fun s => { s with shadowColor := "#654321".toList }
    context.setState fun s => { s with shadowBlur := width / 2 }
  else if style = "royal".toList then
    let royalGradient := createLinearGradient 0 0 CANVAS_WIDTH 0
    let royalGradient := royalGradient.addColorStop 0 "#ffd700".toList
    let royalGradient := royalGradient.addColorStop 0.5 "#ffb347".toList
    let royalGradient := royalGradient.addColorStop 1 "#ffd700".toList
    let context := context.setState fun s => { s with strokeStyle := royalGradient }
    let context := context.setState fun s => { s with shadowColor := "#b8860b".toList }
    context.setState fun s => { s with shadowBlur := width / 3 }
  else if style = "nature".toList then
    let natureGradient := createLinearGradient 0 0 0 CANVAS_HEIGHT
    let natureGradient := natureGradient.addColorStop 0 "#228b22".toList
    let natureGradient := natureGradient.addColorStop 0.5 "#32cd32".toList
    let natureGradient := natureGradient.addColorStop 1 "#90ee90".toList
    context.setState fun s => { s with strokeStyle := natureGradient }
  else if style = "ocean".toList then
    let oceanGradient := createLinearGradient 0 0 0 CANVAS_HEIGHT
    let oceanGradient := oceanGradient.addColorStop 0 "#191970".toList
    let oceanGradient := oceanGradient.addColorStop 0.5 "#4169e1".toList
    let oceanGradient := oceanGradient.addColorStop 1 "#87ceeb".toList
    context.setState fun s => { s with strokeStyle := oceanGradient }
  else if style = "sunset".toList then
    let sunsetGradient := createLinearGradient 0 0 CANVAS_WIDTH 0
    let sunsetGradient := sunsetGradient.addColorStop 0 "#ff6b6b".toList
    let sunsetGradient := sunsetGradient.addColorStop 0.5 "#feca57".toList
    let sunsetGradient := sunsetGradient.addColorStop 1 "#ff9ff3".toList
    context.setState fun s => { s with strokeStyle := sunsetGradient }
  else if style = "galaxy".toList then
    let galaxyGradient := createRadialGradient (CANVAS_WIDTH / 2) (CANVAS_HEIGHT / 2) 0
      (CANVAS_WIDTH / 2) (CANVAS_HEIGHT / 2) (max CANVAS_WIDTH CANVAS_HEIGHT / 2)
    let galaxyGradient := galaxyGradient.addColorStop 0 "#9b59b6".toList
    let galaxyGradient := galaxyGradient.addColorStop 0.5 "#3742fa".toList
    let galaxyGradient := galaxyGradient.addColorStop 1 "#2f3542".toList
    let context := context.setState fun s => { s with strokeStyle := galaxyGradient }
    let context := context.setState fun s => { s with shadowColor := "#9b59b6".toList }
    context.setState fun s => { s with shadowBlur := width }
  else if style = "fire".toList then
    let fireGradient := createLinearGradient 0 CANVAS_HEIGHT 0 0
    let fireGradient := fireGradient.addColorStop 0 "#ff0000".toList
    let fireGradient := fireGradient.addColorStop 0.5 "#ff4500".toList
    let fireGradient := fireGradient.addColorStop 1 "#ffd700".toList
    let context := context.setState fun s => { s with strokeStyle := fireGradient }
    let context := context.setState fun s => { s with shadowColor := "#ff4500".toList }
    context.setState fun s => { s with shadowBlur := width / 2 }
  else
    let context := context.setState fun s => { s with strokeStyle := Paint.color color }
    let context := context.setState fun s => { s with shadowColor := "transparent".toList }
    context.setState fun s => { s with shadowBlur := 0 }

/-- The context in which the `switch` of `drawFrame` runs: state saved, line
width and dash pattern set (lines 156-165). -/
def drawFrame_pre (ctx : Context) (W : ℚ) : Context :=
  (ctx.save.setState fun s => { s with lineWidth := W }).setState
    fun s => { s with lineDash := [] }

/-- Embeds `drawFrame` (lines 154-253). -/
def drawFrame (context : Context) (color : Str) (width : ℚ) (style : Str) : Context :=
  let context := context.save
  let halfWidth := width / 2
  let x := halfWidth
  let y := halfWidth
  let w := CANVAS_WIDTH - width
  let h := CANVAS_HEIGHT - width
  let context := context.setState fun s => { s with lineWidth := width }
  let context := context.setState fun s => { s with lineDash := [] }
  let context := drawFrame_switch context color width style
  let context := context.strokeRect x y w h
  context.restore

/-- The glow a drawing state puts on what is drawn: its shadow colour, `none`
when that colour is fully transparent (`transparent`, or the initial
`rgba(0, 0, 0, 0)`), and its shadow blur. -/
def glowOf (st : DrawState) : Option Str × ℚ :=
  (if st.shadowColor = "transparent".toList ∨ st.shadowColor = "rgba(0, 0, 0, 0)".toList
    then none else some st.shadowColor,
   st.shadowBlur)

/-- The drawing state carried by the last operation of a context when that
operation is a `strokeRect`. -/
def lastStrokeState (c : Context) : Option DrawState :=
  match c.ops.getLast? with
  | some (DrawOp.strokeRect _ _ _ _ st) => some st
  | _ => none

/-- The ten style names of the spec table. -/
def styleNames : List Str :=
  ["solid", "gradient", "neon", "vintage", "royal", "nature", "ocean", "sunset", "galaxy",
    "fire"].map String.toList

/-- Spec §4.2 style table, column "paint", on the 400×200 surface: a flat
colour, or a gradient with its geometry (corner-to-corner, left-to-right,
top-to-bottom, bottom-to-top, or radial about the centre) and three stops. -/
def specStylePaint (style : Str) (color : Str) : Paint :=
  if style = "solid".toList then Paint.color color
  else if style = "gradient".toList then
    Paint.linearGradient 0 0 400 200
      [(0, "#667eea".toList), (0.5, "#764ba2".toList), (1, "#f093fb".toList)]
  else if style = "neon".toList then Paint.color "#00ffff".toList
  else if style = "vintage".toList then Paint.color "#8b4513".toList
  else if style = "royal".toList then
    Paint.linearGradient 0 0 400 0
      [(0, "#ffd700".toList), (0.5, "#ffb347".toList), (1, "#ffd700".toList)]
  else if style = "nature".toList then
    Paint.linearGradient 0 0 0 200
      [(0, "#228b22".toList), (0.5, "#32cd32".toList), (1, "#90ee90".toList)]
  else if style = "ocean".toList then
    Paint.linearGradient 0 0 0 200
      [(0, "#191970".toList), (0.5, "#4169e1".toList), (1, "#87ceeb".toList)]
  else if style = "sunset".toList then
    Paint.linearGradient 0 0 400 0
      [(0, "#ff6b6b".toList), (0.5, "#feca57".toList), (1, "#ff9ff3".toList)]
  else if style = "galaxy".toList then
    Paint.radialGradient 200 100 0 200 100 (max 400 200 / 2)
      [(0, "#9b59b6".toList), (0.5, "#3742fa".toList), (1, "#2f3542".toList)]
  else if style = "fire".toList then
    Paint.linearGradient 0 200 0 0
      [(0, "#ff0000".toList), (0.5, "#ff4500".toList), (1, "#ffd700".toList)]
  else Paint.color color

/-- Spec §4.2 style table, columns "glow color" and "glow radius"; the rows of
solid, gradient, nature, ocean and sunset list no glow and radius 0. -/
def specStyleGlow (style : Str) (widthPx : ℚ) : Option Str × ℚ :=
  if style = "neon".toList then (some "#00ffff".toList, widthPx)
  else if style = "vintage".toList then (some "#654321".toList, widthPx / 2)
  else if style = "royal".toList then (some "#b8860b".toList, widthPx / 3)
  else if style = "galaxy".toList then (some "#9b59b6".toList, widthPx)
  else if style = "fire".toList then (some "#ff4500".toList, widthPx / 2)
  else (none, 0)

/-! ## Composer: preview and export -/

/-- The values read from the page controls.  `fontSize` and `frameWidth` hold
the integers `parseInt` returns for the two sliders. -/
structure Controls where
  textInput : Str
  fontFamily : Str
  fontSize : ℤ
  formatSelect : Str
  backgroundColor : Str
  enableFrame : Bool
  frameColor : Str
  frameWidth : ℤ
  frameStyle : Str
  deriving DecidableEq

/-- Embeds `String.prototype.trim`. -/
def trim (s : Str) : Str :=
  ((s.dropWhile isJSWhiteSpace).reverse.dropWhile isJSWhiteSpace).reverse

/-- Embeds `a || b` on strings: the empty string is falsy. -/
def orElse (a b : Str) : Str := if a = [] then b else a

/-- Embeds the template literal that builds the `font` property (lines 115, 314). -/
def fontString (fontSizeNum : ℤ) (selectedFont : Str) : Str :=
  (toString fontSizeNum).toList ++ "px \"".toList ++ selectedFont ++
    "\", \"Apple Color Emoji\", \"Segoe UI Emoji\", \"Noto Color Emoji\", sans-serif".toList

/-- Embeds `Array.prototype.forEach` with the (element, index) callback acting
on a state; the number is the index of the head of the list. -/
def forEachIdx {σ α : Type} (f : σ → α → ℕ → σ) : List α → ℕ → σ → σ
  | [], _, s => s
  | a :: rest, i, s => forEachIdx f rest (i + 1) (f s a i)

/-- Embeds lines 139-148 of `updatePreview`: line height, start position and
the `forEach` that draws each line. -/
def updatePreview_drawLines (ctx : Context) (fontSizeNum : ℤ) (lines : List Str) : Context :=
  let lineHeight : ℚ := fontSizeNum * 1.2
  let totalHeight : ℚ := lines.length * lineHeight
  let startY : ℚ := (CANVAS_HEIGHT - totalHeight) / 2 + lineHeight / 2
  forEachIdx
    (fun (ctx : Context) (line : Str) (index : ℕ) =>
      let y : ℚ := startY + index * lineHeight
      ctx.fillText line (CANVAS_WIDTH / 2) y)
    lines 0 ctx

/-- Embeds lines 338-345 of `downloadImage`. -/
def downloadImage_drawLines (downloadCtx : Context) (fontSizeNum : ℤ) (lines : List Str) :
    Context :=
  let lineHeight : ℚ := fontSizeNum * 1.2
  let totalHeight : ℚ := lines.length * lineHeight
  let startY : ℚ := (CANVAS_HEIGHT - totalHeight) / 2 + lineHeight / 2
  forEachIdx
    (fun (downloadCtx : Context) (line : Str) (index : ℕ) =>
      let y : ℚ := startY + index * lineHeight
      downloadCtx.fillText line (CANVAS_WIDTH / 2) y)
    lines 0 downloadCtx

/-- What `updatePreview` leaves behind: the preview context, the `disabled`
flag of the download button, and the locals `maxWidth` and `lines`. -/
structure PreviewResult where
  ctx : Context
  downloadBtnDisabled : Bool
  maxWidth : ℚ
  lines : List Str

/-- Embeds `updatePreview` (lines 89-152).  `measureText font s` is the width
`measureText(s)` reports under the font `font`; `ctx` is the preview context as
the previous calls left it. -/
def updatePreview (measureText : Str → Str → ℚ) (c : Controls) (ctx : Context) :
    PreviewResult :=
  let text := orElse c.textInput "👋 Digite algo!".toList
  let fontSizeNum := c.fontSize
  let isJpeg : Bool := c.formatSelect = "jpeg".toList
  let bgColor := c.backgroundColor
  let hasFrame := c.enableFrame
  let fColor := c.frameColor
  let fWidth := c.frameWidth
  let fStyle := c.frameStyle
  let ctx := ctx.clearRect 0 0 CANVAS_WIDTH CANVAS_HEIGHT
  let ctx :=
    if isJpeg then
      let ctx := ctx.setState fun s => { s with fillStyle := Paint.color bgColor }
      ctx.fillRect 0 0 CANVAS_WIDTH CANVAS_HEIGHT
    else ctx
  let ctx := if hasFrame then drawFrame ctx fColor fWidth fStyle else ctx
  let selectedFont := orElse c.fontFamily "Inter".toList
  let ctx := ctx.setState fun s => { s with font := fontString fontSizeNum selectedFont }
  let ctx := ctx.setState fun s => { s with textAlign := "center".toList }
  let ctx := ctx.setState fun s => { s with textBaseline := "middle".toList }
  let ctx := ctx.setState fun s =>
    { s with fillStyle := Paint.color (if isJpeg then getContrastColor bgColor
                                       else "#333333".toList) }
  let framePadding : ℚ := if hasFrame then fWidth * 2 + 20 else 40
  let maxWidth : ℚ := CANVAS_WIDTH - framePadding
  let lines := updatePreview_wrap (measureText ctx.state.font) maxWidth text
  let ctx := updatePreview_drawLines ctx fontSizeNum lines
  { ctx := ctx
    downloadBtnDisabled := (trim c.textInput).isEmpty
    maxWidth := maxWidth
    lines := lines }

/-- The class `\w` of a regular expression without flags: `[A-Za-z0-9_]`. -/
def isWordChar (c : Char) : Bool :=
  let n := c.toNat
  (65 ≤ n && n ≤ 90) || (97 ≤ n && n ≤ 122) || (48 ≤ n && n ≤ 57) || n = 95

/-- The characters that `replace(/[^\w\s-]/g, '')` keeps (line 275). -/
def downloadImage_keeps (c : Char) : Bool :=
  isWordChar c || isJSWhiteSpace c || c = '-'

/-- What `downloadImage` does to the page and the browser, in order. -/
inductive Effect where
  | alert (msg : Str)
  | createCanvas (width height : ℚ)
  | toBlob (mimeType : Str) (quality : Option ℚ)
  | createObjectURL
  | appendLink (download : Str)
  | click (download : Str)
  | removeLink
  | revokeObjectURL
  | showNotification (message : Str)
  deriving DecidableEq

/-- The export canvas after drawing, with the locals of the export path. -/
structure ExportRender where
  downloadCtx : Context
  canvasWidth : ℚ
  canvasHeight : ℚ
  filename : Str
  maxWidth : ℚ
  lines : List Str

/-- What a call of `downloadImage` leaves behind. -/
structure ExportResult where
  effects : List Effect
  render : Option ExportRender

/-- Embeds `downloadImage` (lines 268-364).  `now` is the value of
`Date.now()`; `blob` tells whether the browser hands a blob to the `toBlob`
callback (with `null` the callback stops at `URL.createObjectURL`). -/
def downloadImage (measureText : Str → Str → ℚ) (now : ℕ) (blob : Bool) (c : Controls) :
    ExportResult :=
  if (trim c.textInput).isEmpty then
    { effects := [Effect.alert "Por favor, digite algum texto antes de baixar!".toList]
      render := none }
  else
    let format := c.formatSelect
    let text := orElse ((c.textInput.filter downloadImage_keeps).take 20) "imagem".toList
    let filename := text ++ "_".toList ++ (toString now).toList ++ ".".toList ++ format
    let downloadCtx := Context.fresh
    let scale : ℚ := 3
    let canvasWidth := CANVAS_WIDTH * scale
    let canvasHeight := CANVAS_HEIGHT * scale
    let downloadCtx := downloadCtx.scale scale scale
    let fontSizeNum := c.fontSize
    let isJpeg : Bool := format = "jpeg".toList
    let bgColor := c.backgroundColor
    let hasFrame := c.enableFrame
    let fColor := c.frameColor
    let fWidth := c.frameWidth
    let fStyle := c.frameStyle
    let downloadCtx := downloadCtx.clearRect 0 0 CANVAS_WIDTH CANVAS_HEIGHT
    let downloadCtx :=
      if isJpeg then
        let downloadCtx := downloadCtx.setState fun s => { s with fillStyle := Paint.color bgColor }
        downloadCtx.fillRect 0 0 CANVAS_WIDTH CANVAS_HEIGHT
      else downloadCtx
    let downloadCtx := if hasFrame then drawFrame downloadCtx fColor fWidth fStyle else downloadCtx
    let selectedFont := orElse c.fontFamily "Inter".toList
    let downloadCtx := downloadCtx.setState fun s =>
      { s with font := fontString fontSizeNum selectedFont }
    let downloadCtx := downloadCtx.setState fun s => { s with textAlign := "center".toList }
    let downloadCtx := downloadCtx.setState fun s => { s with textBaseline := "middle".toList }
    let downloadCtx := downloadCtx.setState fun s =>
      { s with fillStyle := Paint.color (if isJpeg then getContrastColor bgColor
                                         else "#333333".toList) }
    let framePadding : ℚ := if hasFrame then fWidth * 2 + 20 else 40
    let maxWidth : ℚ := CANVAS_WIDTH - framePadding
    let lines := downloadImage_wrap (measureText downloadCtx.state.font) maxWidth c.textInput
    let downloadCtx := downloadImage_drawLines downloadCtx fontSizeNum lines
    let mimeType := if format = "png".toList then "image/png".toList else "image/jpeg".toList
    let quality : Option ℚ := if format = "jpeg".toList then some 0.95 else none
    let callback : List Effect :=
      if blob then
        [Effect.createObjectURL, Effect.appendLink filename, Effect.click filename,
          Effect.removeLink, Effect.revokeObjectURL,
          Effect.showNotification "Imagem baixada com sucesso! 🎉".toList]
      else []
    { effects := [Effect.createCanvas canvasWidth canvasHeight, Effect.toBlob mimeType quality]
        ++ callback
      render := some
        { downloadCtx := downloadCtx
          canvasWidth := canvasWidth
          canvasHeight := canvasHeight
          filename := filename
          maxWidth := maxWidth
          lines := lines } }

/-- The text, position, ink colour, font and alignment of every `fillText`. -/
def textDraws (ops : List DrawOp) : List (Str × ℚ × ℚ × Paint × Str × Str × Str) :=
  ops.filterMap fun op =>
    match op with
    | DrawOp.fillText t x y st => some (t, x, y, st.fillStyle, st.font, st.textAlign, st.textBaseline)
    | _ => none

/-- The rectangle, line width, dash pattern and stroke paint of every
`strokeRect`. -/
def frameDraws (ops : List DrawOp) : List (ℚ × ℚ × ℚ × ℚ × ℚ × List ℚ × Paint) :=
  ops.filterMap fun op =>
    match op with
    | DrawOp.strokeRect x y w h st => some (x, y, w, h, st.lineWidth, st.lineDash, st.strokeStyle)
    | _ => none

/-- The rectangle and fill paint of every `fillRect` (the background). -/
def backgroundDraws (ops : List DrawOp) : List (ℚ × ℚ × ℚ × ℚ × Paint) :=
  ops.filterMap fun op =>
    match op with
    | DrawOp.fillRect x y w h st => some (x, y, w, h, st.fillStyle)
    | _ => none

/-- A sample state of the page controls: `Hello World`, 32px Inter, PNG, a neon
frame of width 5. -/
def sampleControls : Controls :=
  { textInput := "Hello World".toList
    fontFamily := "Inter".toList
    fontSize := 32
    formatSelect := "png".toList
    backgroundColor := "#ffffff".toList
    enableFrame := true
    frameColor := "#000000".toList
    frameWidth := 5
    frameStyle := "neon".toList }

/-- A sample measure: ten units per character, whatever the font. -/
def sampleMeasure : Str → Str → ℚ := fun _ s => 10 * s.length

/-! ## Notions used to state the later claims on the wrap loop -/

/-- Whether the text is non-empty and has no leading space, no trailing space
and no two adjacent spaces. -/
def noStraySpace (text : Str) : Bool :=
  !text.isEmpty && text.head? != some ' ' && text.getLast? != some ' ' && noDoubleSpace text

/-- The first space-delimited token of a line: its characters up to the first
space. -/
def firstToken (line : Str) : Str := line.takeWhile fun c => c != ' '

/-- Embeds the `keydown` handler of the text input (lines 412-422): whether
the handler calls `preventDefault` for a key with code `keyCode` when the
input holds `value`. -/
def keydownPrevented (keyCode : ℕ) (value : Str) : Bool :=
  if keyCode ∈ [8, 9, 27, 46, 37, 38, 39, 40] then false
  else if value.length ≥ 100 then true
  else false

/-! ## Notions used to state the later claims on colour, frame and composer -/

/-- Whether the string is `#` followed by exactly six hexadecimal digits. -/
def isHexColor (s : Str) : Bool :=
  match s with
  | '#' :: digits => digits.length = 6 && digits.all fun c => (hexDigitValue c).isSome
  | _ => false

/-- The box (left, top, right, bottom) covered by the stroke of a
`strokeRect`: the band reaching half the line width on each side of the
outline of the rectangle. -/
def strokeOuterBox : DrawOp → Option (ℚ × ℚ × ℚ × ℚ)
  | DrawOp.strokeRect x y w h st =>
    some (x - st.lineWidth / 2, y - st.lineWidth / 2,
      x + w + st.lineWidth / 2, y + h + st.lineWidth / 2)
  | _ => none

/-- The local `framePadding` of `updatePreview` (line 121). -/
def updatePreview_framePadding (c : Controls) : ℚ :=
  if c.enableFrame then c.frameWidth * 2 + 20 else 40

/-- The request of the spec's end-to-end example: text `Hello World`, font
size 32, frame disabled, format PNG; the remaining controls are free. -/
def helloWorldRequest (fontFamily backgroundColor frameColor : Str) (frameWidth : ℤ)
    (frameStyle : Str) : Controls :=
  { textInput := "Hello World".toList
    fontFamily := fontFamily
    fontSize := 32
    formatSelect := "png".toList
    backgroundColor := backgroundColor
    enableFrame := false
    frameColor := frameColor
    frameWidth := frameWidth
    frameStyle := frameStyle }

/-! ## Lemmas on split, join and the loop -/

theorem split_ne_nil (s : Str) : split s ≠ [] := by
  cases s with
  | nil => simp [split]
  | cons c cs =>
    simp only [split]
    split_ifs
    · simp
    · cases split cs <;> simp

theorem joinSpace_split (s : Str) : joinSpace (split s) = s := by
  induction s with
  | nil => simp [split, joinSpace]
  | cons c cs ih =>
    simp only [split]
    split_ifs with h
    · subst h
      have hne := split_ne_nil cs
      cases hs : split cs with
      | nil => exact absurd hs hne
      | cons w ws => rw [hs] at ih; simp [joinSpace, ih]
    · have hne := split_ne_nil cs
      cases hs : split cs with
      | nil => exact absurd hs hne
      | cons w ws =>
        rw [hs] at ih
        cases ws with
        | nil => simpa [joinSpace] using ih
        | cons w2 ws2 => simp only [joinSpace] at ih ⊢; simp [ih]

theorem joinSpace_append_singleton (g : List Str) (hg : g ≠ []) (w : Str) :
    joinSpace (g ++ [w]) = joinSpace g ++ ' ' :: w := by
  induction g with
  | nil => exact absurd rfl hg
  | cons a g ih =>
    cases g with
    | nil => simp [joinSpace]
    | cons b g =>
      have := ih (by simp)
      simp only [List.cons_append, joinSpace] at this ⊢
      simp [this]

theorem joinSpace_cons (a : Str) (g : List Str) (hg : g ≠ []) :
    joinSpace (a :: g) = a ++ ' ' :: joinSpace g := by
  cases g with
  | nil => exact absurd rfl hg
  | cons b g => simp [joinSpace]

theorem wrapGroups_ne_nil (m : Str → ℚ) (mw : ℚ) (rest g : List Str) :
    wrapGroups m mw g rest ≠ [] := by
  induction rest generalizing g with
  | nil => simp [wrapGroups]
  | cons w rest ih =>
    simp only [wrapGroups]
    split_ifs
    · exact ih _
    · simp

/-- The preview loop returns, as strings, the groups formed by `wrapGroups`. -/
theorem updatePreview_wrapLoop_eq (m : Str → ℚ) (mw : ℚ) (rest g : List Str)
    (hg : g ≠ []) (lines : List Str) :
    (fun r => r.1 ++ [r.2]) (updatePreview_wrapLoop m mw (joinSpace g) rest lines)
      = lines ++ (wrapGroups m mw g rest).map joinSpace := by
  induction rest generalizing g lines with
  | nil => simp [updatePreview_wrapLoop, wrapGroups]
  | cons w rest ih =>
    simp only [updatePreview_wrapLoop, wrapGroups]
    split_ifs with h
    · have := ih (g ++ [w]) (by simp) lines
      rw [joinSpace_append_singleton g hg w] at this
      exact this
    · have := ih [w] (by simp) (lines ++ [joinSpace g])
      simp only [joinSpace] at this
      simp [this]

/-- The export loop is the same function as the preview loop. -/
theorem downloadImage_wrapLoop_eq (m : Str → ℚ) (mw : ℚ) (rest : List Str)
    (cur : Str) (lines : List Str) :
    downloadImage_wrapLoop m mw cur rest lines = updatePreview_wrapLoop m mw cur rest lines := by
  induction rest generalizing cur lines with
  | nil => simp [updatePreview_wrapLoop, downloadImage_wrapLoop]
  | cons w rest ih =>
    simp only [updatePreview_wrapLoop, downloadImage_wrapLoop]
    split_ifs <;> exact ih _ _

theorem downloadImage_wrap_eq (m : Str → ℚ) (mw : ℚ) (text : Str) :
    downloadImage_wrap m mw text = updatePreview_wrap m mw text := by
  unfold downloadImage_wrap updatePreview_wrap
  cases split text with
  | nil => rfl
  | cons w0 rest => simp [downloadImage_wrapLoop_eq]

/-- The lines of the preview wrap are the joined groups of the tokens. -/
theorem updatePreview_wrap_groups (m : Str → ℚ) (mw : ℚ) (text : Str) :
    ∃ w0 rest, split text = w0 :: rest ∧
      updatePreview_wrap m mw text = (wrapGroups m mw [w0] rest).map joinSpace := by
  cases hs : split text with
  | nil => exact absurd hs (split_ne_nil text)
  | cons w0 rest =>
    refine ⟨w0, rest, rfl, ?_⟩
    unfold updatePreview_wrap
    rw [hs]
    have := updatePreview_wrapLoop_eq m mw rest [w0] (by simp) []
    simpa [joinSpace] using this

theorem wrapGroups_join (m : Str → ℚ) (mw : ℚ) (rest g : List Str) :
    (wrapGroups m mw g rest).flatten = g ++ rest := by
  induction rest generalizing g with
  | nil => simp [wrapGroups]
  | cons w rest ih =>
    simp only [wrapGroups]
    split_ifs
    · rw [ih]; simp
    · simp [ih]

/-- Every group is non-empty and either measures below `maxWidth` or is a
single token. -/
theorem wrapGroups_fit (m : Str → ℚ) (mw : ℚ) (rest g : List Str) (hg : g ≠ [])
    (hfit : m (joinSpace g) < mw ∨ ∃ t, g = [t]) :
    ∀ g' ∈ wrapGroups m mw g rest,
      g' ≠ [] ∧ (m (joinSpace g') < mw ∨ ∃ t, g' = [t]) := by
  induction rest generalizing g with
  | nil =>
    intro g' hg'
    simp only [wrapGroups, List.mem_singleton] at hg'
    subst hg'
    exact ⟨hg, hfit⟩
  | cons w rest ih =>
    intro g' hg'
    simp only [wrapGroups] at hg'
    split_ifs at hg' with h
    · refine ih (g ++ [w]) (by simp) ?_ g' hg'
      left
      rw [joinSpace_append_singleton g hg w]
      exact h
    · rcases List.mem_cons.1 hg' with rfl | hmem
      · exact ⟨hg, hfit⟩
      · exact ih [w] (by simp) (Or.inr ⟨w, rfl⟩) g' hmem

theorem split_noSpace (t : Str) (ht : ' ' ∉ t) : split t = [t] := by
  induction t with
  | nil => rfl
  | cons c t ih =>
    have hc : c ≠ ' ' := fun h => ht (by simp [h])
    have ht' : ' ' ∉ t := fun h => ht (List.mem_cons_of_mem _ h)
    simp [split, hc, ih ht']

theorem split_append_space (t s : Str) (ht : ' ' ∉ t) :
    split (t ++ ' ' :: s) = t :: split s := by
  induction t with
  | nil => simp [split]
  | cons c t ih =>
    have hc : c ≠ ' ' := fun h => ht (by simp [h])
    have ht' : ' ' ∉ t := fun h => ht (List.mem_cons_of_mem _ h)
    simp [split, hc, ih ht']

theorem split_tokens_noSpace (s : Str) : ∀ t ∈ split s, ' ' ∉ t := by
  induction s with
  | nil => simp [split]
  | cons c cs ih =>
    intro t ht
    simp only [split] at ht
    split_ifs at ht with h
    · rcases List.mem_cons.1 ht with rfl | hmem
      · simp
      · exact ih t hmem
    · cases hs : split cs with
      | nil => exact absurd hs (split_ne_nil cs)
      | cons w ws =>
        rw [hs] at ht ih
        rcases List.mem_cons.1 ht with rfl | hmem
        · have hw := ih w (by simp)
          intro hmem
          rcases List.mem_cons.1 hmem with heq | hmem'
          · exact h heq.symm
          · exact hw hmem'
        · exact ih t (List.mem_cons_of_mem _ hmem)

theorem split_joinSpace (g : List Str) (hg : g ≠ []) (hns : ∀ t ∈ g, ' ' ∉ t) :
    split (joinSpace g) = g := by
  induction g with
  | nil => exact absurd rfl hg
  | cons a g ih =>
    cases g with
    | nil => simpa [joinSpace] using split_noSpace a (hns a (by simp))
    | cons b g =>
      have h1 := ih (by simp) (fun t ht => hns t (List.mem_cons_of_mem _ ht))
      simp only [joinSpace] at h1 ⊢
      rw [split_append_space a _ (hns a (by simp)), h1]

theorem joinSpace_append (g h : List Str) (hg : g ≠ []) (hh : h ≠ []) :
    joinSpace (g ++ h) = joinSpace g ++ ' ' :: joinSpace h := by
  induction g with
  | nil => exact absurd rfl hg
  | cons a g ih =>
    cases g with
    | nil => simpa [joinSpace] using joinSpace_cons a h hh
    | cons b g =>
      have := ih (by simp)
      simp only [List.cons_append, joinSpace] at this ⊢
      simp [this]

theorem joinSpace_flatten (gs : List (List Str)) (h : ∀ g ∈ gs, g ≠ []) :
    joinSpace (gs.map joinSpace) = joinSpace gs.flatten := by
  induction gs with
  | nil => rfl
  | cons g gs ih =>
    have hg : g ≠ [] := h g (by simp)
    have ih' := ih (fun g' hg' => h g' (List.mem_cons_of_mem _ hg'))
    cases gs with
    | nil => simp [joinSpace]
    | cons g2 gs =>
      have hg2 : g2 ≠ [] := h g2 (by simp)
      have hne : (g2 :: gs).flatten ≠ [] := by
        cases g2 with
        | nil => exact absurd rfl hg2
        | cons a g2 => simp
      rw [List.map_cons, List.flatten_cons, joinSpace_cons _ _ (by simp), ih',
        joinSpace_append g _ hg hne]

theorem collapseSpaces_of_noDoubleSpace (s : Str) (h : noDoubleSpace s = true) :
    collapseSpaces s = s := by
  induction s with
  | nil => rfl
  | cons c cs ih =>
    cases cs with
    | nil => rfl
    | cons d cs =>
      simp only [noDoubleSpace, Bool.and_eq_true, Bool.not_eq_true', Bool.and_eq_false_imp,
        decide_eq_true_eq, decide_eq_false_iff_not] at h
      simp only [collapseSpaces]
      rw [if_neg (fun hcd => h.1 hcd.1 hcd.2), ih h.2]

/-- The groups formed from the tokens of `text`, with all their properties. -/
theorem wrap_groups_spec (m : Str → ℚ) (mw : ℚ) (text : Str) :
    ∃ groups : List (List Str),
      groups.flatten = split text ∧
      updatePreview_wrap m mw text = groups.map joinSpace ∧
      downloadImage_wrap m mw text = groups.map joinSpace ∧
      ∀ g ∈ groups, g ≠ [] ∧ (m (joinSpace g) < mw ∨ ∃ t, g = [t]) := by
  obtain ⟨w0, rest, hs, hw⟩ := updatePreview_wrap_groups m mw text
  refine ⟨wrapGroups m mw [w0] rest, ?_, hw, ?_, ?_⟩
  · rw [wrapGroups_join, hs]; rfl
  · rw [downloadImage_wrap_eq, hw]
  · exact wrapGroups_fit m mw rest [w0] (by simp) (Or.inr ⟨w0, rfl⟩)

/-! ## Claims on the wrap loop -/

/-- C1: every line produced by the wrap loop of `updatePreview` and of
`downloadImage` is the space-join of a non-empty group of whole consecutive
tokens of `text.split(' ')` (no token is split across lines), and each line
measures at most `maxWidth` unless it is a single token that itself measures
more than `maxWidth`. -/
theorem wrap_lines_fit_or_single_token (measureText : Str → ℚ) (maxWidth : ℚ) (text : Str) :
    ∃ groups : List (List Str),
      groups.flatten = split text ∧
      updatePreview_wrap measureText maxWidth text = groups.map joinSpace ∧
      downloadImage_wrap measureText maxWidth text = groups.map joinSpace ∧
      ∀ g ∈ groups, g ≠ [] ∧
        (measureText (joinSpace g) ≤ maxWidth ∨
          ∃ t, g = [t] ∧ t ∈ split text ∧ maxWidth < measureText t) := by
  obtain ⟨groups, hflat, hp, hd, hfit⟩ := wrap_groups_spec measureText maxWidth text
  refine ⟨groups, hflat, hp, hd, fun g hg => ⟨(hfit g hg).1, ?_⟩⟩
  rcases (hfit g hg).2 with hlt | ⟨t, rfl⟩
  · exact Or.inl (le_of_lt hlt)
  · rcases le_or_lt (measureText t) maxWidth with hle | hgt
    · exact Or.inl (by simpa [joinSpace] using hle)
    · refine Or.inr ⟨t, rfl, ?_, hgt⟩
      rw [← hflat]
      exact List.mem_flatten.2 ⟨[t], hg, by simp⟩

/-- C2 (as stated, refuted): for the text `a  b` (two spaces) the lines joined
with single spaces give back `a  b`, not the whitespace-collapsed `a b`. -/
theorem wrap_join_ne_collapsed :
    joinSpace (updatePreview_wrap (fun _ => 0) 1 "a  b".toList) ≠ collapseSpaces "a  b".toList ∧
    joinSpace (downloadImage_wrap (fun _ => 0) 1 "a  b".toList) ≠ collapseSpaces "a  b".toList := by
  simp [updatePreview_wrap, downloadImage_wrap, split, updatePreview_wrapLoop,
    downloadImage_wrapLoop, joinSpace, collapseSpaces]

/-- C2 (amended): for a text with no two adjacent spaces, joining the produced
lines with single spaces reproduces the whitespace-collapsed input exactly, and
the tokens of the lines, in order, are exactly the tokens of the text (none
lost, duplicated or reordered); this holds for both copies of the loop. -/
theorem wrap_join_eq_collapsed (measureText : Str → ℚ) (maxWidth : ℚ) (text : Str)
    (h : noDoubleSpace text = true) :
    joinSpace (updatePreview_wrap measureText maxWidth text) = collapseSpaces text ∧
    joinSpace (downloadImage_wrap measureText maxWidth text) = collapseSpaces text ∧
    ((updatePreview_wrap measureText maxWidth text).map split).flatten = split text ∧
    ((downloadImage_wrap measureText maxWidth text).map split).flatten = split text := by
  obtain ⟨groups, hflat, hp, hd, hfit⟩ := wrap_groups_spec measureText maxWidth text
  have hjoin : joinSpace (groups.map joinSpace) = text := by
    rw [joinSpace_flatten groups (fun g hg => (hfit g hg).1), hflat, joinSpace_split]
  have htok : ((groups.map joinSpace).map split).flatten = split text := by
    rw [← hflat, List.map_map]
    congr 1
    conv_rhs => rw [← List.map_id groups]
    apply List.map_congr_left
    intro g hg
    have hns : ∀ t ∈ g, ' ' ∉ t := fun t ht =>
      split_tokens_noSpace text t (by rw [← hflat]; exact List.mem_flatten.2 ⟨g, hg, ht⟩)
    simpa using split_joinSpace g (hfit g hg).1 hns
  rw [hp, hd, collapseSpaces_of_noDoubleSpace text h]
  exact ⟨hjoin, hjoin, htok, htok⟩

/-- Witness for C2 (amended) at the text `a b c`. -/
theorem wrap_join_eq_collapsed_witness :
    noDoubleSpace "a b c".toList = true ∧
    joinSpace (updatePreview_wrap (fun s => s.length) 4 "a b c".toList)
        = collapseSpaces "a b c".toList ∧
    joinSpace (downloadImage_wrap (fun s => s.length) 4 "a b c".toList)
        = collapseSpaces "a b c".toList ∧
    ((updatePreview_wrap (fun s => s.length) 4 "a b c".toList).map split).flatten
        = split "a b c".toList ∧
    ((downloadImage_wrap (fun s => s.length) 4 "a b c".toList).map split).flatten
        = split "a b c".toList :=
  ⟨by decide, wrap_join_eq_collapsed (fun s => s.length) 4 "a b c".toList (by decide)⟩

/-! ## Claims on the contrast colour -/

set_option maxRecDepth 100000 in
theorem parseInt16_hexChar : ∀ (u1 u2 : Bool) (v1 v2 : Fin 16),
    parseInt16 [(hexChar u1 v1).toNat, (hexChar u2 v2).toNat]
      = some ((16 * v1.val + v2.val : ℕ) : ℤ) := by
  decide

theorem hexChar_toNat_lt : ∀ (u : Bool) (v : Fin 16), (hexChar u v).toNat < 0x10000 := by
  decide

theorem utf16_cons_bmp (c : Char) (cs : Str) (h : c.toNat < 0x10000) :
    utf16 (c :: cs) = c.toNat :: utf16 cs := by
  rw [utf16, if_pos h]

theorem getContrastColor_brightness_hex (u1 u2 u3 u4 u5 u6 : Bool) (v1 v2 v3 v4 v5 v6 : Fin 16) :
    getContrastColor_brightness
        ['#', hexChar u1 v1, hexChar u2 v2, hexChar u3 v3, hexChar u4 v4, hexChar u5 v5,
          hexChar u6 v6]
      = some (((299 * (16 * v1.val + v2.val) + 587 * (16 * v3.val + v4.val)
          + 114 * (16 * v5.val + v6.val) : ℕ) : ℚ) / 1000) := by
  have hu : utf16 ['#', hexChar u1 v1, hexChar u2 v2, hexChar u3 v3, hexChar u4 v4,
      hexChar u5 v5, hexChar u6 v6]
      = [35, (hexChar u1 v1).toNat, (hexChar u2 v2).toNat, (hexChar u3 v3).toNat,
          (hexChar u4 v4).toNat, (hexChar u5 v5).toNat, (hexChar u6 v6).toNat] := by
    rw [utf16_cons_bmp _ _ (by decide), utf16_cons_bmp _ _ (hexChar_toNat_lt _ _),
      utf16_cons_bmp _ _ (hexChar_toNat_lt _ _), utf16_cons_bmp _ _ (hexChar_toNat_lt _ _),
      utf16_cons_bmp _ _ (hexChar_toNat_lt _ _), utf16_cons_bmp _ _ (hexChar_toNat_lt _ _),
      utf16_cons_bmp _ _ (hexChar_toNat_lt _ _)]
    rfl
  unfold getContrastColor_brightness
  rw [hu]
  simp only [substr, List.drop, List.take, parseInt16_hexChar]
  congr 1
  push_cast
  ring

/-- C4: on `#` followed by six hexadecimal digits of either case, with channel
values `r`, `g`, `b` (each at most 255), `getContrastColor` returns `#000000`
exactly when `(299 r + 587 g + 114 b) / 1000 > 128`, that is when
`299 r + 587 g + 114 b > 128000`, and `#FFFFFF` otherwise; it returns no other
value. -/
theorem getContrastColor_hex (u1 u2 u3 u4 u5 u6 : Bool) (v1 v2 v3 v4 v5 v6 : Fin 16) :
    let hexColor : Str :=
      ['#', hexChar u1 v1, hexChar u2 v2, hexChar u3 v3, hexChar u4 v4, hexChar u5 v5,
        hexChar u6 v6]
    let r : ℕ := 16 * v1.val + v2.val
    let g : ℕ := 16 * v3.val + v4.val
    let b : ℕ := 16 * v5.val + v6.val
    r ≤ 255 ∧ g ≤ 255 ∧ b ≤ 255 ∧
    (getContrastColor hexColor = "#000000".toList ↔ 299 * r + 587 * g + 114 * b > 128000) ∧
    (getContrastColor hexColor = "#FFFFFF".toList ↔ ¬ 299 * r + 587 * g + 114 * b > 128000) ∧
    ((299 * r + 587 * g + 114 * b > 128000) ↔
      ((299 * r + 587 * g + 114 * b : ℕ) : ℚ) / 1000 > 128) ∧
    (getContrastColor hexColor = "#000000".toList ∨
      getContrastColor hexColor = "#FFFFFF".toList) := by
  intro hexColor r g b
  have hb := getContrastColor_brightness_hex u1 u2 u3 u4 u5 u6 v1 v2 v3 v4 v5 v6
  have hiff : (299 * r + 587 * g + 114 * b > 128000) ↔
      ((299 * r + 587 * g + 114 * b : ℕ) : ℚ) / 1000 > 128 := by
    rw [gt_iff_lt, gt_iff_lt, lt_div_iff₀ (by norm_num : (0 : ℚ) < 1000)]
    have : (128 : ℚ) * 1000 = ((128000 : ℕ) : ℚ) := by norm_num
    rw [this, Nat.cast_lt]
  have hne : "#000000".toList ≠ "#FFFFFF".toList := by decide
  have hval : getContrastColor hexColor
      = if 299 * r + 587 * g + 114 * b > 128000 then "#000000".toList
        else "#FFFFFF".toList := by
    show getContrastColor _ = _
    unfold getContrastColor
    rw [hb]
    by_cases h : 299 * r + 587 * g + 114 * b > 128000
    · rw [if_pos h]
      exact if_pos (hiff.1 h)
    · rw [if_neg h]
      exact if_neg (fun h2 => h (hiff.2 h2))
  refine ⟨by omega, by omega, by omega, ?_, ?_, hiff, ?_⟩
  · rw [hval]
    by_cases h : 299 * r + 587 * g + 114 * b > 128000
    · simp [h]
    · simp only [if_neg h, h, iff_false]
      exact fun h2 => hne h2.symm
  · rw [hval]
    by_cases h : 299 * r + 587 * g + 114 * b > 128000
    · simp only [if_pos h, h, not_true_eq_false, iff_false]
      exact hne
    · simp [h]
  · rw [hval]
    by_cases h : 299 * r + 587 * g + 114 * b > 128000
    · left; simp [h]
    · right; simp [h]

/-! ## Claims on the frame renderer -/

theorem ite_holds {α : Type} (P : α → Prop) (c : Prop) [Decidable c] (a b : α)
    (ha : P a) (hb : P b) : P (if c then a else b) := by
  split_ifs <;> assumption

/-- The `switch` touches only stroke paint, shadow colour and shadow blur. -/
theorem drawFrame_switch_frame (c : Context) (color : Str) (W : ℚ) (style : Str) :
    (drawFrame_switch c color W style).stack = c.stack ∧
    (drawFrame_switch c color W style).ops = c.ops ∧
    (drawFrame_switch c color W style).state.lineWidth = c.state.lineWidth ∧
    (drawFrame_switch c color W style).state.lineDash = c.state.lineDash ∧
    (drawFrame_switch c color W style).state.fillStyle = c.state.fillStyle ∧
    (drawFrame_switch c color W style).state.font = c.state.font := by
  unfold drawFrame_switch
  repeat' first
    | exact ⟨rfl, rfl, rfl, rfl, rfl, rfl⟩
    | refine ite_holds (fun r : Context => r.stack = c.stack ∧ r.ops = c.ops ∧
        r.state.lineWidth = c.state.lineWidth ∧ r.state.lineDash = c.state.lineDash ∧
        r.state.fillStyle = c.state.fillStyle ∧ r.state.font = c.state.font) _ _ _ ?_ ?_

/-- What `drawFrame` leaves behind: the incoming state and stack, and one more
operation, a `strokeRect` on the inset rectangle carrying the state the
`switch` produced. -/
theorem drawFrame_eq (ctx : Context) (color : Str) (W : ℚ) (style : Str) :
    drawFrame ctx color W style =
      { state := ctx.state, stack := ctx.stack,
        ops := ctx.ops ++ [DrawOp.strokeRect (W / 2) (W / 2) (400 - W) (200 - W)
          (drawFrame_switch (drawFrame_pre ctx W) color W style).state] } := by
  have h := drawFrame_switch_frame (drawFrame_pre ctx W) color W style
  obtain ⟨hstack, hops, -⟩ := h
  have hstack' : (drawFrame_switch (drawFrame_pre ctx W) color W style).stack
      = ctx.state :: ctx.stack := by rw [hstack]; rfl
  have hops' : (drawFrame_switch (drawFrame_pre ctx W) color W style).ops = ctx.ops := by
    rw [hops]; rfl
  show Context.restore (Context.strokeRect
    (drawFrame_switch (drawFrame_pre ctx W) color W style) _ _ _ _) = _
  simp only [Context.restore, Context.strokeRect, Context.emit, hstack', hops', CANVAS_WIDTH,
    CANVAS_HEIGHT]

theorem lastStrokeState_drawFrame (ctx : Context) (color : Str) (W : ℚ) (style : Str) :
    lastStrokeState (drawFrame ctx color W style)
      = some (drawFrame_switch (drawFrame_pre ctx W) color W style).state := by
  rw [drawFrame_eq]
  simp [lastStrokeState]

theorem drawFrame_switch_gradient (c : Context) (color : Str) (W : ℚ) :
    (drawFrame_switch c color W "gradient".toList).state =
      { c.state with
        strokeStyle := Paint.linearGradient 0 0 400 200
          [(0, "#667eea".toList), (0.5, "#764ba2".toList), (1, "#f093fb".toList)] } := by
  unfold drawFrame_switch
  rw [if_pos rfl]
  rfl

theorem drawFrame_switch_neon (c : Context) (color : Str) (W : ℚ) :
    (drawFrame_switch c color W "neon".toList).state =
      { c.state with
        strokeStyle := Paint.color "#00ffff".toList
        shadowColor := "#00ffff".toList
        shadowBlur := W } := by
  unfold drawFrame_switch
  rw [if_neg (by decide), if_pos rfl]
  rfl

theorem drawFrame_switch_vintage (c : Context) (color : Str) (W : ℚ) :
    (drawFrame_switch c color W "vintage".toList).state =
      { c.state with
        strokeStyle := Paint.color "#8b4513".toList
        shadowColor := "#654321".toList
        shadowBlur := W / 2 } := by
  unfold drawFrame_switch
  rw [if_neg (by decide), if_neg (by decide), if_pos rfl]
  rfl

theorem drawFrame_switch_royal (c : Context) (color : Str) (W : ℚ) :
    (drawFrame_switch c color W "royal".toList).state =
      { c.state with
        strokeStyle := Paint.linearGradient 0 0 400 0
          [(0, "#ffd700".toList), (0.5, "#ffb347".toList), (1, "#ffd700".toList)]
        shadowColor := "#b8860b".toList
        shadowBlur := W / 3 } := by
  unfold drawFrame_switch
  rw [if_neg (by decide), if_neg (by decide), if_neg (by decide), if_pos rfl]
  rfl

theorem drawFrame_switch_nature (c : Context) (color : Str) (W : ℚ) :
    (drawFrame_switch c color W "nature".toList).state =
      { c.state with
        strokeStyle := Paint.linearGradient 0 0 0 200
          [(0, "#228b22".toList), (0.5, "#32cd32".toList), (1, "#90ee90".toList)] } := by
  unfold drawFrame_switch
  rw [if_neg (by decide), if_neg (by decide), if_neg (by decide), if_neg (by decide),
    if_pos rfl]
  rfl

theorem drawFrame_switch_ocean (c : Context) (color : Str) (W : ℚ) :
    (drawFrame_switch c color W "ocean".toList).state =
      { c.state with
        strokeStyle := Paint.linearGradient 0 0 0 200
          [(0, "#191970".toList), (0.5, "#4169e1".toList), (1, "#87ceeb".toList)] } := by
  unfold drawFrame_switch
  rw [if_neg (by decide), if_neg (by decide), if_neg (by decide), if_neg (by decide),
    if_neg (by decide), if_pos rfl]
  rfl

theorem drawFrame_switch_sunset (c : Context) (color : Str) (W : ℚ) :
    (drawFrame_switch c color W "sunset".toList).state =
      { c.state with
        strokeStyle := Paint.linearGradient 0 0 400 0
          [(0, "#ff6b6b".toList), (0.5, "#feca57".toList), (1, "#ff9ff3".toList)] } := by
  unfold drawFrame_switch
  rw [if_neg (by decide), if_neg (by decide), if_neg (by decide), if_neg (by decide),
    if_neg (by decide), if_neg (by decide), if_pos rfl]
  rfl

theorem drawFrame_switch_galaxy (c : Context) (color : Str) (W : ℚ) :
    (drawFrame_switch c color W "galaxy".toList).state =
      { c.state with
        strokeStyle := Paint.radialGradient (400 / 2) (200 / 2) 0 (400 / 2) (200 / 2)
          (max 400 200 / 2)
          [(0, "#9b59b6".toList), (0.5, "#3742fa".toList), (1, "#2f3542".toList)]
        shadowColor := "#9b59b6".toList
        shadowBlur := W } := by
  unfold drawFrame_switch
  rw [if_neg (by decide), if_neg (by decide), if_neg (by decide), if_neg (by decide),
    if_neg (by decide), if_neg (by decide), if_neg (by decide), if_pos rfl]
  rfl

theorem drawFrame_switch_fire (c : Context) (color : Str) (W : ℚ) :
    (drawFrame_switch c color W "fire".toList).state =
      { c.state with
        strokeStyle := Paint.linearGradient 0 200 0 0
          [(0, "#ff0000".toList), (0.5, "#ff4500".toList), (1, "#ffd700".toList)]
        shadowColor := "#ff4500".toList
        shadowBlur := W / 2 } := by
  unfold drawFrame_switch
  rw [if_neg (by decide), if_neg (by decide), if_neg (by decide), if_neg (by decide),
    if_neg (by decide), if_neg (by decide), if_neg (by decide), if_neg (by decide), if_pos rfl]
  rfl

theorem drawFrame_switch_solid (c : Context) (color : Str) (W : ℚ) :
    (drawFrame_switch c color W "solid".toList).state =
      { c.state with
        strokeStyle := Paint.color color
        shadowColor := "transparent".toList
        shadowBlur := 0 } := by
  unfold drawFrame_switch
  rw [if_neg (by decide), if_neg (by decide), if_neg (by decide), if_neg (by decide),
    if_neg (by decide), if_neg (by decide), if_neg (by decide), if_neg (by decide),
    if_neg (by decide)]
  rfl

/-- C5: for every frame width `W`, colour and style string (the ten named
styles and any other), `drawFrame` issues exactly one operation, a `strokeRect`
with bounds `(W/2, W/2, 400 - W, 200 - W)`, drawn with line width `W` and an
empty dash pattern. -/
theorem drawFrame_one_strokeRect (ctx : Context) (color : Str) (W : ℚ) (style : Str) :
    ∃ st : DrawState,
      (drawFrame ctx color W style).ops
        = ctx.ops ++ [DrawOp.strokeRect (W / 2) (W / 2) (400 - W) (200 - W) st] ∧
      st.lineWidth = W ∧ st.lineDash = [] := by
  obtain ⟨-, -, hw, hd, -⟩ := drawFrame_switch_frame (drawFrame_pre ctx W) color W style
  refine ⟨_, by rw [drawFrame_eq], ?_, ?_⟩
  · rw [hw]; rfl
  · rw [hd]; rfl

/-- C6 (as stated, refuted): called with style `gradient` and width 10 on a
context whose state has shadow colour `#ff0000` and shadow blur 5, `drawFrame`
strokes with that glow in effect, not with the table's "none, 0". -/
theorem drawFrame_gradient_keeps_incoming_glow :
    (lastStrokeState
        (drawFrame
          { state := { DrawState.initial with shadowColor := "#ff0000".toList, shadowBlur := 5 },
            stack := [], ops := [] }
          "#000000".toList 10 "gradient".toList)).map glowOf
      = some (some "#ff0000".toList, 5) ∧
    specStyleGlow "gradient".toList 10 = (none, 0) ∧
    "gradient".toList ∈ styleNames := by
  refine ⟨?_, ?_, ?_⟩
  · rw [lastStrokeState_drawFrame, drawFrame_switch_gradient]
    simp [glowOf, drawFrame_pre, Context.save, Context.setState]
  · simp [specStyleGlow]
  · simp [styleNames]

/-- C6 (amended): for each of the ten styles, every frame width `W` and every
incoming context, the stroke paint in effect when `drawFrame` strokes is the
paint of the style's row of the spec table; the glow in effect is the glow of
that row for solid, neon, vintage, royal, galaxy and fire, and for gradient,
nature, ocean and sunset whenever the incoming state has no glow (shadow
colour transparent, blur 0). -/
theorem drawFrame_style_table (ctx : Context) (color : Str) (W : ℚ) (style : Str)
    (hs : style ∈ styleNames)
    (hg : style ∈ ["gradient", "nature", "ocean", "sunset"].map String.toList →
      glowOf ctx.state = (none, 0)) :
    ∃ st : DrawState,
      lastStrokeState (drawFrame ctx color W style) = some st ∧
      st.strokeStyle = specStylePaint style color ∧
      glowOf st = specStyleGlow style W := by
  refine ⟨_, lastStrokeState_drawFrame ctx color W style, ?_⟩
  simp only [styleNames, List.map_cons, List.map_nil, List.mem_cons, List.mem_singleton,
    List.not_mem_nil, or_false] at hs
  rcases hs with rfl | rfl | rfl | rfl | rfl | rfl | rfl | rfl | rfl | rfl
  · rw [drawFrame_switch_solid]
    exact ⟨by simp [specStylePaint], by simp [glowOf, specStyleGlow]⟩
  · have h := hg (by decide)
    rw [drawFrame_switch_gradient]
    exact ⟨by simp [specStylePaint], by simpa [glowOf, specStyleGlow] using h⟩
  · rw [drawFrame_switch_neon]
    exact ⟨by simp [specStylePaint], by simp [glowOf, specStyleGlow]⟩
  · rw [drawFrame_switch_vintage]
    exact ⟨by simp [specStylePaint], by simp [glowOf, specStyleGlow]⟩
  · rw [drawFrame_switch_royal]
    exact ⟨by simp [specStylePaint], by simp [glowOf, specStyleGlow]⟩
  · have h := hg (by decide)
    rw [drawFrame_switch_nature]
    exact ⟨by simp [specStylePaint], by simpa [glowOf, specStyleGlow] using h⟩
  · have h := hg (by decide)
    rw [drawFrame_switch_ocean]
    exact ⟨by simp [specStylePaint], by simpa [glowOf, specStyleGlow] using h⟩
  · have h := hg (by decide)
    rw [drawFrame_switch_sunset]
    exact ⟨by simp [specStylePaint], by simpa [glowOf, specStyleGlow] using h⟩
  · rw [drawFrame_switch_galaxy]
    exact ⟨by simp [specStylePaint]; norm_num, by simp [glowOf, specStyleGlow]⟩
  · rw [drawFrame_switch_fire]
    exact ⟨by simp [specStylePaint], by simp [glowOf, specStyleGlow]⟩

/-- Witness for C6 (amended): style `gradient`, width 6, on a fresh context. -/
theorem drawFrame_style_table_witness :
    "gradient".toList ∈ styleNames ∧ glowOf Context.fresh.state = (none, 0) ∧
    ∃ st : DrawState,
      lastStrokeState (drawFrame Context.fresh "#000000".toList 6 "gradient".toList) = some st ∧
      st.strokeStyle = specStylePaint "gradient".toList "#000000".toList ∧
      glowOf st = specStyleGlow "gradient".toList 6 :=
  ⟨by decide, by decide,
    drawFrame_style_table Context.fresh "#000000".toList 6 "gradient".toList (by decide)
      (fun _ => by decide)⟩

/-- C7: for every incoming context, colour, width and style, the drawing state
(stroke paint, shadow colour and blur, line width, dash pattern, fill style,
font, alignment) and the stack of saved states after `drawFrame` are those
before the call; the only effect is one `strokeRect` appended to the
operations. -/
theorem drawFrame_restores_state (ctx : Context) (color : Str) (W : ℚ) (style : Str) :
    (drawFrame ctx color W style).state = ctx.state ∧
    (drawFrame ctx color W style).stack = ctx.stack ∧
    ∃ st : DrawState,
      (drawFrame ctx color W style).ops
        = ctx.ops ++ [DrawOp.strokeRect (W / 2) (W / 2) (400 - W) (200 - W) st] := by
  rw [drawFrame_eq]
  exact ⟨rfl, rfl, _, rfl⟩

/-! ## Claims on the vertical placement of the lines -/

theorem forEachIdx_fillText (x a h : ℚ) (lines : List Str) (i : ℕ) (ctx : Context) :
    forEachIdx (fun (ctx : Context) (line : Str) (index : ℕ) =>
        ctx.fillText line x (a + index * h)) lines i ctx
      = { state := ctx.state, stack := ctx.stack,
          ops := ctx.ops ++ (lines.enumFrom i).map
            (fun p => DrawOp.fillText p.2 x (a + p.1 * h) ctx.state) } := by
  induction lines generalizing i ctx with
  | nil => simp [forEachIdx]
  | cons l rest ih =>
    simp only [forEachIdx]
    rw [ih]
    simp [Context.fillText, Context.emit]

theorem updatePreview_drawLines_eq (ctx : Context) (F : ℤ) (lines : List Str) :
    updatePreview_drawLines ctx F lines
      = { state := ctx.state, stack := ctx.stack,
          ops := ctx.ops ++ lines.enum.map
            (fun p => DrawOp.fillText p.2 200
              ((200 - lines.length * ((F : ℚ) * 1.2)) / 2 + (F : ℚ) * 1.2 / 2
                + p.1 * ((F : ℚ) * 1.2)) ctx.state) } := by
  unfold updatePreview_drawLines
  simp only [CANVAS_WIDTH, CANVAS_HEIGHT]
  rw [forEachIdx_fillText]
  norm_num [List.enum]

theorem downloadImage_drawLines_eq (ctx : Context) (F : ℤ) (lines : List Str) :
    downloadImage_drawLines ctx F lines
      = { state := ctx.state, stack := ctx.stack,
          ops := ctx.ops ++ lines.enum.map
            (fun p => DrawOp.fillText p.2 200
              ((200 - lines.length * ((F : ℚ) * 1.2)) / 2 + (F : ℚ) * 1.2 / 2
                + p.1 * ((F : ℚ) * 1.2)) ctx.state) } := by
  unfold downloadImage_drawLines
  simp only [CANVAS_WIDTH, CANVAS_HEIGHT]
  rw [forEachIdx_fillText]
  norm_num [List.enum]

theorem sum_arith_positions (a h : ℚ) (n : ℕ) :
    ((List.range n).map (fun i : ℕ => a + i * h)).sum = n * a + h * (n * (n - 1) / 2) := by
  induction n with
  | zero => simp
  | succ n ih =>
    rw [List.range_succ, List.map_append, List.sum_append, ih]
    simp only [List.map_cons, List.map_nil, List.sum_cons, List.sum_nil]
    push_cast
    ring

/-- C8: for every font size `F` and every non-empty list of `N` wrapped lines,
with `H = 1.2 * F`, both `updatePreview` and `downloadImage` draw line `i` at
`x = 200` and `y i = startY + i * H` where `startY = (200 - N * H) / 2 + H / 2`;
the positions are symmetric about 100, `y i + y (N - 1 - i) = 200`, and their
mean is exactly 100. -/
theorem drawLines_positions_centered (ctx : Context) (F : ℤ) (lines : List Str)
    (hN : 1 ≤ lines.length) :
    let N := lines.length
    let H : ℚ := 1.2 * F
    let startY : ℚ := (200 - N * H) / 2 + H / 2
    let y : ℕ → ℚ := fun i => startY + i * H
    (updatePreview_drawLines ctx F lines).ops
      = ctx.ops ++ lines.enum.map (fun p => DrawOp.fillText p.2 200 (y p.1) ctx.state) ∧
    (downloadImage_drawLines ctx F lines).ops
      = ctx.ops ++ lines.enum.map (fun p => DrawOp.fillText p.2 200 (y p.1) ctx.state) ∧
    (∀ i, i < N → y i + y (N - 1 - i) = 200) ∧
    ((List.range N).map y).sum / N = 100 := by
  intro N H startY y
  have hH : (F : ℚ) * 1.2 = H := by simp only [H]; ring
  refine ⟨?_, ?_, ?_, ?_⟩
  · rw [updatePreview_drawLines_eq, hH]
  · rw [downloadImage_drawLines_eq, hH]
  · intro i hi
    have hcast : ((N - 1 - i : ℕ) : ℚ) = (N : ℚ) - 1 - i := by
      rw [Nat.cast_sub (by omega), Nat.cast_sub (by omega)]
      simp
    simp only [y, startY, hcast]
    ring
  · have hN0 : (N : ℚ) ≠ 0 := by
      have : 0 < N := hN
      exact_mod_cast this.ne'
    rw [sum_arith_positions, div_eq_iff hN0]
    simp only [startY]
    ring

/-- Witness for C8: two lines at font size 32. -/
theorem drawLines_positions_centered_witness :
    1 ≤ ["Hello".toList, "World".toList].length ∧
    let N := ["Hello".toList, "World".toList].length
    let H : ℚ := 1.2 * (32 : ℤ)
    let startY : ℚ := (200 - N * H) / 2 + H / 2
    let y : ℕ → ℚ := fun i => startY + i * H
    (updatePreview_drawLines Context.fresh 32 ["Hello".toList, "World".toList]).ops
      = Context.fresh.ops ++ ["Hello".toList, "World".toList].enum.map
          (fun p => DrawOp.fillText p.2 200 (y p.1) Context.fresh.state) ∧
    (downloadImage_drawLines Context.fresh 32 ["Hello".toList, "World".toList]).ops
      = Context.fresh.ops ++ ["Hello".toList, "World".toList].enum.map
          (fun p => DrawOp.fillText p.2 200 (y p.1) Context.fresh.state) ∧
    (∀ i, i < N → y i + y (N - 1 - i) = 200) ∧
    ((List.range N).map y).sum / N = 100 :=
  ⟨by decide,
    drawLines_positions_centered Context.fresh 32 ["Hello".toList, "World".toList] (by decide)⟩

/-! ## Claims on the composer -/

theorem drawFrame_switch_default (c : Context) (color : Str) (W : ℚ) (style : Str)
    (h1 : style ≠ "gradient".toList) (h2 : style ≠ "neon".toList)
    (h3 : style ≠ "vintage".toList) (h4 : style ≠ "royal".toList)
    (h5 : style ≠ "nature".toList) (h6 : style ≠ "ocean".toList)
    (h7 : style ≠ "sunset".toList) (h8 : style ≠ "galaxy".toList)
    (h9 : style ≠ "fire".toList) :
    (drawFrame_switch c color W style).state =
      { c.state with
        strokeStyle := Paint.color color
        shadowColor := "transparent".toList
        shadowBlur := 0 } := by
  unfold drawFrame_switch
  rw [if_neg h1, if_neg h2, if_neg h3, if_neg h4, if_neg h5, if_neg h6, if_neg h7, if_neg h8,
    if_neg h9]
  rfl

/-- The stroke paint the `switch` selects does not depend on the context. -/
theorem drawFrame_switch_strokeStyle (c1 c2 : Context) (color : Str) (W : ℚ) (style : Str) :
    (drawFrame_switch c1 color W style).state.strokeStyle
      = (drawFrame_switch c2 color W style).state.strokeStyle := by
  by_cases h1 : style = "gradient".toList
  · subst h1; rw [drawFrame_switch_gradient, drawFrame_switch_gradient]
  by_cases h2 : style = "neon".toList
  · subst h2; rw [drawFrame_switch_neon, drawFrame_switch_neon]
  by_cases h3 : style = "vintage".toList
  · subst h3; rw [drawFrame_switch_vintage, drawFrame_switch_vintage]
  by_cases h4 : style = "royal".toList
  · subst h4; rw [drawFrame_switch_royal, drawFrame_switch_royal]
  by_cases h5 : style = "nature".toList
  · subst h5; rw [drawFrame_switch_nature, drawFrame_switch_nature]
  by_cases h6 : style = "ocean".toList
  · subst h6; rw [drawFrame_switch_ocean, drawFrame_switch_ocean]
  by_cases h7 : style = "sunset".toList
  · subst h7; rw [drawFrame_switch_sunset, drawFrame_switch_sunset]
  by_cases h8 : style = "galaxy".toList
  · subst h8; rw [drawFrame_switch_galaxy, drawFrame_switch_galaxy]
  by_cases h9 : style = "fire".toList
  · subst h9; rw [drawFrame_switch_fire, drawFrame_switch_fire]
  rw [drawFrame_switch_default c1 color W style h1 h2 h3 h4 h5 h6 h7 h8 h9,
    drawFrame_switch_default c2 color W style h1 h2 h3 h4 h5 h6 h7 h8 h9]

theorem orElse_of_ne_nil (a b : Str) (h : a ≠ []) : orElse a b = a := if_neg h

theorem textDraws_append (a b : List DrawOp) : textDraws (a ++ b) = textDraws a ++ textDraws b := by
  simp [textDraws]

theorem frameDraws_append (a b : List DrawOp) :
    frameDraws (a ++ b) = frameDraws a ++ frameDraws b := by
  simp [frameDraws]

theorem backgroundDraws_append (a b : List DrawOp) :
    backgroundDraws (a ++ b) = backgroundDraws a ++ backgroundDraws b := by
  simp [backgroundDraws]

theorem textDraws_fillTexts {α : Type} (l : List α) (f : α → Str) (g : α → ℚ) (x : ℚ)
    (st : DrawState) :
    textDraws (l.map fun p => DrawOp.fillText (f p) x (g p) st)
      = l.map fun p => (f p, x, g p, st.fillStyle, st.font, st.textAlign, st.textBaseline) := by
  induction l with
  | nil => rfl
  | cons a l ih =>
    simp only [textDraws, List.map_cons, List.filterMap_cons] at ih ⊢
    rw [ih]

theorem frameDraws_fillTexts {α : Type} (l : List α) (f : α → Str) (g : α → ℚ) (x : ℚ)
    (st : DrawState) :
    frameDraws (l.map fun p => DrawOp.fillText (f p) x (g p) st) = [] := by
  induction l with
  | nil => rfl
  | cons a l ih =>
    simp only [frameDraws, List.map_cons, List.filterMap_cons] at ih ⊢
    rw [ih]

theorem backgroundDraws_fillTexts {α : Type} (l : List α) (f : α → Str) (g : α → ℚ) (x : ℚ)
    (st : DrawState) :
    backgroundDraws (l.map fun p => DrawOp.fillText (f p) x (g p) st) = [] := by
  induction l with
  | nil => rfl
  | cons a l ih =>
    simp only [backgroundDraws, List.map_cons, List.filterMap_cons] at ih ⊢
    rw [ih]

/-- The frame stroke as the projections see it: rectangle, line width `W`, no
dash, and the paint the `switch` selects. -/
theorem frameDraws_strokeRect (ctx : Context) (color : Str) (W : ℚ) (style : Str)
    (x y w h : ℚ) :
    frameDraws [DrawOp.strokeRect x y w h
        (drawFrame_switch (drawFrame_pre ctx W) color W style).state]
      = [(x, y, w, h, W, [],
          (drawFrame_switch Context.fresh color W style).state.strokeStyle)] := by
  obtain ⟨-, -, hw, hd, -⟩ := drawFrame_switch_frame (drawFrame_pre ctx W) color W style
  simp only [frameDraws, List.filterMap_cons, List.filterMap_nil, hw, hd,
    drawFrame_switch_strokeStyle (drawFrame_pre ctx W) Context.fresh]
  rfl

/-- C3: whenever export proceeds (trimmed text non-empty), for the same control
values and the same measure function, `downloadImage` computes the same
`maxWidth`, the same wrapped lines, the same ink colour, the same text draws
(line, x, y, ink colour, font, alignment), the same frame draw (rectangle,
stroke width, dash pattern, stroke paint) and the same background fill as
`updatePreview` issues on the preview context, whatever state that context was
left in; the export canvas is 1200×600 with scale 3, and all these values are
in logical units. -/
theorem export_matches_preview (measureText : Str → Str → ℚ) (now : ℕ) (blob : Bool)
    (c : Controls) (ctx : Context) (h : trim c.textInput ≠ []) :
    ∃ r : ExportRender,
      (downloadImage measureText now blob c).render = some r ∧
      r.maxWidth = (updatePreview measureText c ctx).maxWidth ∧
      r.lines = (updatePreview measureText c ctx).lines ∧
      r.downloadCtx.state.fillStyle = (updatePreview measureText c ctx).ctx.state.fillStyle ∧
      textDraws r.downloadCtx.ops
        = textDraws ((updatePreview measureText c ctx).ctx.ops.drop ctx.ops.length) ∧
      frameDraws r.downloadCtx.ops
        = frameDraws ((updatePreview measureText c ctx).ctx.ops.drop ctx.ops.length) ∧
      backgroundDraws r.downloadCtx.ops
        = backgroundDraws ((updatePreview measureText c ctx).ctx.ops.drop ctx.ops.length) ∧
      r.canvasWidth = 3 * 400 ∧ r.canvasHeight = 3 * 200 ∧
      r.downloadCtx.state.scale = (3, 3) := by
  have hne : c.textInput ≠ [] := fun h0 => h (by rw [h0]; rfl)
  have hemp : (trim c.textInput).isEmpty = false := by
    cases htr : trim c.textInput with
    | nil => exact absurd htr h
    | cons a l => rfl
  have htext : orElse c.textInput "👋 Digite algo!".toList = c.textInput :=
    orElse_of_ne_nil _ _ hne
  unfold downloadImage
  rw [hemp]
  refine ⟨_, rfl, ?_⟩
  cases hF : c.enableFrame <;> by_cases hJ : c.formatSelect = "jpeg".toList <;>
    simp only [updatePreview, hJ, hF, htext, drawFrame_eq, updatePreview_drawLines_eq,
      downloadImage_drawLines_eq, downloadImage_wrap_eq, Context.clearRect, Context.scale,
      Context.fresh, Context.emit, Context.setState, Context.fillRect, decide_True, decide_False,
      if_true, if_false, List.append_assoc, List.drop_left, List.nil_append,
      textDraws_append, frameDraws_append, backgroundDraws_append, textDraws_fillTexts,
      frameDraws_fillTexts, backgroundDraws_fillTexts, frameDraws_strokeRect, Bool.false_eq_true]
  all_goals
    simp only [textDraws, frameDraws, backgroundDraws, List.filterMap_cons, List.filterMap_nil,
      CANVAS_WIDTH, CANVAS_HEIGHT, DrawState.initial, List.append_nil, List.nil_append, true_and]
  all_goals norm_num

/-- Witness for C3 at the sample controls, on a fresh preview context. -/
theorem export_matches_preview_witness :
    trim sampleControls.textInput ≠ [] ∧
    ∃ r : ExportRender,
      (downloadImage sampleMeasure 0 true sampleControls).render = some r ∧
      r.maxWidth = (updatePreview sampleMeasure sampleControls Context.fresh).maxWidth ∧
      r.lines = (updatePreview sampleMeasure sampleControls Context.fresh).lines ∧
      r.downloadCtx.state.fillStyle
        = (updatePreview sampleMeasure sampleControls Context.fresh).ctx.state.fillStyle ∧
      textDraws r.downloadCtx.ops
        = textDraws ((updatePreview sampleMeasure sampleControls Context.fresh).ctx.ops.drop
            Context.fresh.ops.length) ∧
      frameDraws r.downloadCtx.ops
        = frameDraws ((updatePreview sampleMeasure sampleControls Context.fresh).ctx.ops.drop
            Context.fresh.ops.length) ∧
      backgroundDraws r.downloadCtx.ops
        = backgroundDraws ((updatePreview sampleMeasure sampleControls Context.fresh).ctx.ops.drop
            Context.fresh.ops.length) ∧
      r.canvasWidth = 3 * 400 ∧ r.canvasHeight = 3 * 200 ∧
      r.downloadCtx.state.scale = (3, 3) :=
  ⟨by decide, export_matches_preview sampleMeasure 0 true sampleControls Context.fresh (by decide)⟩

theorem trim_isEmpty_eq_false (s : Str) (h : trim s ≠ []) : (trim s).isEmpty = false := by
  cases htr : trim s with
  | nil => exact absurd htr h
  | cons a l => rfl

/-- C9: for every text, `updatePreview` enables the download button exactly
when the trimmed text is non-empty; `downloadImage` creates the export canvas
and asks for the blob exactly when the trimmed text is non-empty, and, the
browser delivering the blob, clicks the download link exactly then; for empty
or white-space-only text it shows the empty-text message and does nothing
else (no canvas, blob, link or download). -/
theorem export_gated_on_trimmed_text (measureText : Str → Str → ℚ) (now : ℕ) (blob : Bool)
    (c : Controls) (ctx : Context) :
    ((updatePreview measureText c ctx).downloadBtnDisabled = false ↔ trim c.textInput ≠ []) ∧
    ((∃ w h, Effect.createCanvas w h ∈ (downloadImage measureText now blob c).effects)
      ↔ trim c.textInput ≠ []) ∧
    ((∃ mime q, Effect.toBlob mime q ∈ (downloadImage measureText now blob c).effects)
      ↔ trim c.textInput ≠ []) ∧
    ((∃ name, Effect.click name ∈ (downloadImage measureText now true c).effects)
      ↔ trim c.textInput ≠ []) ∧
    ((downloadImage measureText now blob c).effects
        = [Effect.alert "Por favor, digite algum texto antes de baixar!".toList]
      ↔ trim c.textInput = []) ∧
    ((downloadImage measureText now blob c).render.isNone = true ↔ trim c.textInput = []) := by
  by_cases h : trim c.textInput = []
  · have hemp : (trim c.textInput).isEmpty = true := by rw [h]; rfl
    refine ⟨?_, ?_, ?_, ?_, ?_, ?_⟩ <;>
      simp [updatePreview, downloadImage, hemp, h]
  · have hemp := trim_isEmpty_eq_false _ h
    refine ⟨?_, ?_, ?_, ?_, ?_, ?_⟩ <;>
      simp [updatePreview, downloadImage, hemp, h]

theorem imagem_chars :
    ∀ ch ∈ "imagem".toList, isWordChar ch = true ∨ isJSWhiteSpace ch = true ∨ ch = '-' := by
  decide

/-- C10: whenever export proceeds, the suggested file name (the name of the
download link that is clicked) is `stem ++ "_" ++ time token ++ "." ++ format`,
where `stem` is the text with every character other than a word character,
white space or hyphen removed, cut to its first 20 characters, or `imagem`
when that is empty; the stem is never empty, has at most 20 characters, and
holds only word, white-space and hyphen characters. -/
theorem export_filename_stem (measureText : Str → Str → ℚ) (now : ℕ) (c : Controls)
    (h : trim c.textInput ≠ []) :
    let kept : Str := (c.textInput.filter downloadImage_keeps).take 20
    let stem : Str := if kept = [] then "imagem".toList else kept
    let name : Str := stem ++ "_".toList ++ (toString now).toList ++ ".".toList ++ c.formatSelect
    (∃ r : ExportRender,
      (downloadImage measureText now true c).render = some r ∧ r.filename = name) ∧
    Effect.click name ∈ (downloadImage measureText now true c).effects ∧
    stem ≠ [] ∧ stem.length ≤ 20 ∧
    ∀ ch ∈ stem, isWordChar ch = true ∨ isJSWhiteSpace ch = true ∨ ch = '-' := by
  intro kept stem name
  have hemp := trim_isEmpty_eq_false _ h
  refine ⟨?_, ?_, ?_, ?_, ?_⟩
  · unfold downloadImage
    rw [hemp]
    exact ⟨_, rfl, rfl⟩
  · unfold downloadImage
    rw [hemp]
    simp [orElse, name, stem, kept]
  · simp only [stem]
    split_ifs with hk
    · decide
    · exact hk
  · simp only [stem]
    split_ifs with hk
    · decide
    · simp [kept, List.length_take]
  · intro ch hch
    simp only [stem] at hch
    split_ifs at hch with hk
    · exact imagem_chars ch hch
    · have hmem : ch ∈ c.textInput.filter downloadImage_keeps := List.mem_of_mem_take hch
      have hkeep : downloadImage_keeps ch = true := (List.mem_filter.1 hmem).2
      simpa [downloadImage_keeps, or_assoc] using hkeep

/-- Witness for C10: the text `Olá, mundo!` exported as PNG at time 1700000000000. -/
theorem export_filename_stem_witness :
    trim "Olá, mundo!".toList ≠ [] ∧
    (let kept : Str := ("Olá, mundo!".toList.filter downloadImage_keeps).take 20
     let stem : Str := if kept = [] then "imagem".toList else kept
     let name : Str := stem ++ "_".toList ++ (toString 1700000000000).toList ++ ".".toList
       ++ { sampleControls with textInput := "Olá, mundo!".toList }.formatSelect
     (∃ r : ExportRender,
       (downloadImage sampleMeasure 1700000000000 true
         { sampleControls with textInput := "Olá, mundo!".toList }).render = some r ∧
       r.filename = name) ∧
     Effect.click name ∈ (downloadImage sampleMeasure 1700000000000 true
         { sampleControls with textInput := "Olá, mundo!".toList }).effects ∧
     stem ≠ [] ∧ stem.length ≤ 20 ∧
     ∀ ch ∈ stem, isWordChar ch = true ∨ isJSWhiteSpace ch = true ∨ ch = '-') :=
  ⟨by decide,
    export_filename_stem sampleMeasure 1700000000000
      { sampleControls with textInput := "Olá, mundo!".toList } (by decide)⟩

/-! ## Further lemmas on the wrap loop -/

theorem split_cons_space (cs : Str) : split (' ' :: cs) = [] :: split cs := by
  simp [split]

theorem split_cons_of_ne (c : Char) (cs : Str) (h : c ≠ ' ') :
    split (c :: cs) = (c :: (split cs).headD []) :: (split cs).tail := by
  simp only [split, if_neg h]
  cases hs : split cs with
  | nil => exact absurd hs (split_ne_nil cs)
  | cons w ws => rfl

theorem tail_split_clean_iff (s : Str) :
    [] ∉ (split s).tail ↔ (noDoubleSpace s = true ∧ s.getLast? ≠ some ' ') := by
  induction s with
  | nil => simp [split, noDoubleSpace]
  | cons c cs ih =>
    by_cases hc : c = ' '
    · subst hc
      rw [split_cons_space]
      cases cs with
      | nil => simp [split, noDoubleSpace]
      | cons d ds =>
        by_cases hd : d = ' '
        · subst hd
          simp [split_cons_space, noDoubleSpace]
        · rw [split_cons_of_ne d ds hd] at ih ⊢
          simp only [List.tail_cons] at ih ⊢
          simp only [List.mem_cons, not_or, noDoubleSpace, List.getLast?_cons_cons]
          rw [ih]
          simp [hd]
    · rw [split_cons_of_ne c cs hc]
      simp only [List.tail_cons]
      rw [ih]
      cases cs with
      | nil => simp [noDoubleSpace, hc]
      | cons d ds => simp [noDoubleSpace, hc, List.getLast?_cons_cons]

/-- The tokens of a text are all non-empty exactly when the text is non-empty
and has no leading, trailing or doubled space. -/
theorem split_clean_iff (s : Str) : [] ∉ split s ↔ noStraySpace s = true := by
  cases s with
  | nil => simp [split, noStraySpace]
  | cons c cs =>
    by_cases hc : c = ' '
    · subst hc
      simp [split_cons_space, noStraySpace]
    · rw [split_cons_of_ne c cs hc]
      have h := tail_split_clean_iff cs
      simp only [List.mem_cons, not_or]
      rw [h]
      cases cs with
      | nil => simp [noStraySpace, noDoubleSpace, hc]
      | cons d ds =>
        simp only [noStraySpace, noDoubleSpace, hc, List.getLast?_cons_cons]
        simp [hc, and_comm]

/-- Joining the produced lines gives back the text. -/
theorem wrap_join (m : Str → ℚ) (mw : ℚ) (text : Str) :
    joinSpace (updatePreview_wrap m mw text) = text := by
  obtain ⟨groups, hflat, hp, -, hfit⟩ := wrap_groups_spec m mw text
  rw [hp, joinSpace_flatten groups (fun g hg => (hfit g hg).1), hflat, joinSpace_split]

/-- Every produced line splits back into its own group of tokens. -/
theorem wrap_line_tokens (m : Str → ℚ) (mw : ℚ) (text : Str) :
    ∀ line ∈ updatePreview_wrap m mw text,
      line = joinSpace (split line) ∧ ∀ t ∈ split line, t ∈ split text := by
  obtain ⟨groups, hflat, hp, -, hfit⟩ := wrap_groups_spec m mw text
  intro line hline
  rw [hp] at hline
  obtain ⟨g, hg, rfl⟩ := List.mem_map.1 hline
  have hsub : ∀ t ∈ g, t ∈ split text := fun t ht => by
    rw [← hflat]; exact List.mem_flatten.2 ⟨g, hg, ht⟩
  have hsplit : split (joinSpace g) = g :=
    split_joinSpace g (hfit g hg).1 (fun t ht => split_tokens_noSpace text t (hsub t ht))
  rw [hsplit]
  exact ⟨rfl, hsub⟩

theorem wrap_tokens (m : Str → ℚ) (mw : ℚ) (text : Str) :
    ((updatePreview_wrap m mw text).map split).flatten = split text := by
  obtain ⟨groups, hflat, hp, -, hfit⟩ := wrap_groups_spec m mw text
  rw [hp, ← hflat, List.map_map]
  congr 1
  conv_rhs => rw [← List.map_id groups]
  apply List.map_congr_left
  intro g hg
  have hns : ∀ t ∈ g, ' ' ∉ t := fun t ht =>
    split_tokens_noSpace text t (by rw [← hflat]; exact List.mem_flatten.2 ⟨g, hg, ht⟩)
  simpa using split_joinSpace g (hfit g hg).1 hns

theorem length_le_length_flatten (gs : List (List Str)) (h : ∀ g ∈ gs, g ≠ []) :
    gs.length ≤ gs.flatten.length := by
  induction gs with
  | nil => simp
  | cons g gs ih =>
    have hg : g ≠ [] := h g (by simp)
    have hpos : 1 ≤ g.length := List.length_pos.2 hg
    have := ih (fun g' hg' => h g' (List.mem_cons_of_mem _ hg'))
    simp only [List.length_cons, List.flatten_cons, List.length_append]
    omega

theorem wrap_length_le (m : Str → ℚ) (mw : ℚ) (text : Str) :
    (updatePreview_wrap m mw text).length ≤ (split text).length := by
  obtain ⟨groups, hflat, hp, -, hfit⟩ := wrap_groups_spec m mw text
  rw [hp, ← hflat, List.length_map]
  exact length_le_length_flatten groups (fun g hg => (hfit g hg).1)

theorem wrap_ne_nil (m : Str → ℚ) (mw : ℚ) (text : Str) :
    updatePreview_wrap m mw text ≠ [] := by
  obtain ⟨w0, rest, -, hw⟩ := updatePreview_wrap_groups m mw text
  rw [hw]
  intro h
  exact wrapGroups_ne_nil m mw rest [w0] (List.map_eq_nil_iff.1 h)

/-- A text without a space is a single token and comes back as a single line. -/
theorem wrap_noSpace (m : Str → ℚ) (mw : ℚ) (text : Str) (h : ' ' ∉ text) :
    updatePreview_wrap m mw text = [text] := by
  unfold updatePreview_wrap
  rw [split_noSpace text h]
  simp [updatePreview_wrapLoop]

theorem sum_length_le_joinSpace (l : List Str) :
    (l.map List.length).sum ≤ (joinSpace l).length := by
  induction l with
  | nil => simp [joinSpace]
  | cons a l ih =>
    cases l with
    | nil => simp [joinSpace]
    | cons b l =>
      simp only [joinSpace, List.map_cons, List.sum_cons, List.length_append,
        List.length_cons] at ih ⊢
      omega

/-! ## Claims on empty tokens, overflow and line count -/

/-- C11 (as stated, refuted): for the text `a  b` (two spaces) the tokens
contain the empty token, and when no two tokens fit on a line the middle line
is empty. -/
theorem split_keeps_empty_token :
    [] ∈ split "a  b".toList ∧
    [] ∈ updatePreview_wrap (fun _ => 1) 0 "a  b".toList ∧
    [] ∈ downloadImage_wrap (fun _ => 1) 0 "a  b".toList := by
  have h10 : ¬ ((1 : ℚ) < 0) := by norm_num
  simp [updatePreview_wrap, downloadImage_wrap, split, updatePreview_wrapLoop,
    downloadImage_wrapLoop, h10]

/-- C11 (amended): for every non-empty text with no leading space, no trailing
space and no two adjacent spaces, the tokens the wrap loop works on contain no
empty token, and no line produced by either copy of the loop is empty, begins
or ends with a space, or contains two adjacent spaces. -/
theorem wrap_lines_clean (measureText : Str → ℚ) (maxWidth : ℚ) (text : Str)
    (h : noStraySpace text = true) :
    [] ∉ split text ∧
    (∀ line ∈ updatePreview_wrap measureText maxWidth text,
      line ≠ [] ∧ line.head? ≠ some ' ' ∧ line.getLast? ≠ some ' ' ∧
        noDoubleSpace line = true) ∧
    (∀ line ∈ downloadImage_wrap measureText maxWidth text,
      line ≠ [] ∧ line.head? ≠ some ' ' ∧ line.getLast? ≠ some ' ' ∧
        noDoubleSpace line = true) := by
  have hclean : [] ∉ split text := (split_clean_iff text).2 h
  have hlines : ∀ line ∈ updatePreview_wrap measureText maxWidth text,
      line ≠ [] ∧ line.head? ≠ some ' ' ∧ line.getLast? ≠ some ' ' ∧
        noDoubleSpace line = true := by
    intro line hline
    obtain ⟨-, hsub⟩ := wrap_line_tokens measureText maxWidth text line hline
    have hl : noStraySpace line = true :=
      (split_clean_iff line).1 (fun hmem => hclean (hsub [] hmem))
    simpa [noStraySpace, and_assoc] using hl
  refine ⟨hclean, hlines, ?_⟩
  rw [downloadImage_wrap_eq]
  exact hlines

/-- Witness for C11 (amended) at the text `a b c`. -/
theorem wrap_lines_clean_witness :
    noStraySpace "a b c".toList = true ∧
    ([] ∉ split "a b c".toList ∧
    (∀ line ∈ updatePreview_wrap (fun s => s.length) 4 "a b c".toList,
      line ≠ [] ∧ line.head? ≠ some ' ' ∧ line.getLast? ≠ some ' ' ∧
        noDoubleSpace line = true) ∧
    (∀ line ∈ downloadImage_wrap (fun s => s.length) 4 "a b c".toList,
      line ≠ [] ∧ line.head? ≠ some ' ' ∧ line.getLast? ≠ some ' ' ∧
        noDoubleSpace line = true)) :=
  ⟨by decide, wrap_lines_clean (fun s => s.length) 4 "a b c".toList (by decide)⟩

/-- C13 (as stated, refuted): a text of 101 letters `a` comes back as one line
holding all 101 characters; nothing is cut at 100. -/
theorem wrap_keeps_overflow :
    updatePreview_wrap (fun _ => 0) 1 (List.replicate 101 'a') = [List.replicate 101 'a'] ∧
    downloadImage_wrap (fun _ => 0) 1 (List.replicate 101 'a') = [List.replicate 101 'a'] ∧
    (joinSpace (updatePreview_wrap (fun _ => 0) 1 (List.replicate 101 'a'))).length = 101 ∧
    joinSpace (updatePreview_wrap (fun _ => 0) 1 (List.replicate 101 'a'))
      ≠ (List.replicate 101 'a').take 100 := by
  have hns : ' ' ∉ List.replicate 101 'a' := by
    intro h
    have := (List.mem_replicate.1 h).2
    exact absurd this (by decide)
  have hw := wrap_noSpace (fun _ => 0) 1 (List.replicate 101 'a') hns
  refine ⟨hw, by rw [downloadImage_wrap_eq]; exact hw, ?_, ?_⟩
  · rw [hw]; simp [joinSpace]
  · rw [hw]
    intro h
    have hlen := congrArg List.length h
    simp [joinSpace] at hlen

/-- C13 (amended): the wrap step does not truncate; for every text of at most
100 characters the characters laid out across the produced lines are those of
the text, so they come from its first 100 characters, and they number at most
100; the only length cap in the script is the `keydown` handler, which blocks
a key exactly when it is not one of the eight editing keys and the value
already holds 100 characters or more. -/
theorem wrap_within_cap (measureText : Str → ℚ) (maxWidth : ℚ) (text : Str)
    (h : text.length ≤ 100) :
    joinSpace (updatePreview_wrap measureText maxWidth text) = text.take 100 ∧
    joinSpace (downloadImage_wrap measureText maxWidth text) = text.take 100 ∧
    ((updatePreview_wrap measureText maxWidth text).map List.length).sum ≤ 100 ∧
    ((downloadImage_wrap measureText maxWidth text).map List.length).sum ≤ 100 ∧
    ∀ (keyCode : ℕ) (value : Str),
      keydownPrevented keyCode value = true ↔
        (keyCode ∉ [8, 9, 27, 46, 37, 38, 39, 40] ∧ 100 ≤ value.length) := by
  have htake : text.take 100 = text := List.take_of_length_le h
  have hj := wrap_join measureText maxWidth text
  have hsum : ((updatePreview_wrap measureText maxWidth text).map List.length).sum ≤ 100 := by
    have := sum_length_le_joinSpace (updatePreview_wrap measureText maxWidth text)
    rw [hj] at this
    omega
  refine ⟨by rw [hj, htake], by rw [downloadImage_wrap_eq, hj, htake], hsum,
    by rw [downloadImage_wrap_eq]; exact hsum, ?_⟩
  intro keyCode value
  unfold keydownPrevented
  by_cases hk : keyCode ∈ [8, 9, 27, 46, 37, 38, 39, 40]
  · simp [hk]
  · by_cases hv : value.length ≥ 100
    · simp [hk, hv]
    · rw [if_neg hk, if_neg hv]
      simp only [Bool.false_eq_true, false_iff, not_and]
      exact fun _ => hv

/-- Witness for C13 (amended) at the text `Hello World`. -/
theorem wrap_within_cap_witness :
    "Hello World".toList.length ≤ 100 ∧
    (joinSpace (updatePreview_wrap (fun s => s.length) 4 "Hello World".toList)
      = "Hello World".toList.take 100 ∧
    joinSpace (downloadImage_wrap (fun s => s.length) 4 "Hello World".toList)
      = "Hello World".toList.take 100 ∧
    ((updatePreview_wrap (fun s => s.length) 4 "Hello World".toList).map List.length).sum
      ≤ 100 ∧
    ((downloadImage_wrap (fun s => s.length) 4 "Hello World".toList).map List.length).sum
      ≤ 100 ∧
    ∀ (keyCode : ℕ) (value : Str),
      keydownPrevented keyCode value = true ↔
        (keyCode ∉ [8, 9, 27, 46, 37, 38, 39, 40] ∧ 100 ≤ value.length)) :=
  ⟨by decide, wrap_within_cap (fun s => s.length) 4 "Hello World".toList (by decide)⟩

/-- C14: for every text (non-empty or not), measure and `maxWidth`, both copies
of the wrap loop produce at least one line; and for a text `token` containing
no space they produce exactly one line, equal to `token`, whatever its measured
width. -/
theorem wrap_at_least_one_line (measureText : Str → ℚ) (maxWidth : ℚ) (text token : Str)
    (h : ' ' ∉ token) :
    1 ≤ (updatePreview_wrap measureText maxWidth text).length ∧
    1 ≤ (downloadImage_wrap measureText maxWidth text).length ∧
    updatePreview_wrap measureText maxWidth token = [token] ∧
    downloadImage_wrap measureText maxWidth token = [token] := by
  have h1 : 1 ≤ (updatePreview_wrap measureText maxWidth text).length :=
    List.length_pos.2 (wrap_ne_nil measureText maxWidth text)
  have h2 := wrap_noSpace measureText maxWidth token h
  exact ⟨h1, by rw [downloadImage_wrap_eq]; exact h1, h2, by rw [downloadImage_wrap_eq]; exact h2⟩

/-- Witness for C14: the text `a b`, and the token `abc`, wider than `maxWidth`. -/
theorem wrap_at_least_one_line_witness :
    ' ' ∉ "abc".toList ∧
    (1 ≤ (updatePreview_wrap (fun s => s.length) 1 "a b".toList).length ∧
    1 ≤ (downloadImage_wrap (fun s => s.length) 1 "a b".toList).length ∧
    updatePreview_wrap (fun s => s.length) 1 "abc".toList = ["abc".toList] ∧
    downloadImage_wrap (fun s => s.length) 1 "abc".toList = ["abc".toList]) :=
  ⟨by decide,
    wrap_at_least_one_line (fun s => s.length) 1 "a b".toList "abc".toList (by decide)⟩

/-- C18: for every text, measure and `maxWidth`, joining the lines produced by
either copy of the wrap loop with single spaces gives back the text character
for character; the space-split tokens of the lines, concatenated, are
`text.split(' ')`; and there are at most as many lines as tokens. -/
theorem wrap_join_eq_text (measureText : Str → ℚ) (maxWidth : ℚ) (text : Str) :
    joinSpace (updatePreview_wrap measureText maxWidth text) = text ∧
    joinSpace (downloadImage_wrap measureText maxWidth text) = text ∧
    ((updatePreview_wrap measureText maxWidth text).map split).flatten = split text ∧
    ((downloadImage_wrap measureText maxWidth text).map split).flatten = split text ∧
    (updatePreview_wrap measureText maxWidth text).length ≤ (split text).length ∧
    (downloadImage_wrap measureText maxWidth text).length ≤ (split text).length := by
  rw [downloadImage_wrap_eq]
  exact ⟨wrap_join _ _ _, wrap_join _ _ _, wrap_tokens _ _ _, wrap_tokens _ _ _,
    wrap_length_le _ _ _, wrap_length_le _ _ _⟩

/-! ## Claim on greedy maximality -/

theorem wrapGroups_head (m : Str → ℚ) (mw : ℚ) (rest g : List Str) :
    ∃ g' tl, wrapGroups m mw g rest = (g ++ g') :: tl := by
  induction rest generalizing g with
  | nil => exact ⟨[], [], by simp [wrapGroups]⟩
  | cons w rest ih =>
    simp only [wrapGroups]
    split_ifs
    · obtain ⟨g', tl, h⟩ := ih (g ++ [w])
      exact ⟨w :: g', tl, by rw [h]; simp⟩
    · exact ⟨[], wrapGroups m mw [w] rest, by simp⟩

theorem firstToken_noSpace_append (w rest : Str) (hw : ' ' ∉ w) :
    firstToken (w ++ ' ' :: rest) = w := by
  induction w with
  | nil => simp [firstToken]
  | cons c w ih =>
    have hc : c ≠ ' ' := fun h => hw (by simp [h])
    have hw' : ' ' ∉ w := fun h => hw (List.mem_cons_of_mem _ h)
    have := ih hw'
    simp only [firstToken] at this
    simp [firstToken, hc, this]

theorem firstToken_noSpace (w : Str) (hw : ' ' ∉ w) : firstToken w = w := by
  induction w with
  | nil => simp [firstToken]
  | cons c w ih =>
    have hc : c ≠ ' ' := fun h => hw (by simp [h])
    have hw' : ' ' ∉ w := fun h => hw (List.mem_cons_of_mem _ h)
    have := ih hw'
    simp only [firstToken] at this
    simp [firstToken, hc, this]

theorem firstToken_joinSpace_cons (w : Str) (g : List Str) (hw : ' ' ∉ w) :
    firstToken (joinSpace (w :: g)) = w := by
  cases g with
  | nil => simpa [joinSpace] using firstToken_noSpace w hw
  | cons b g =>
    simp only [joinSpace]
    exact firstToken_noSpace_append w _ hw

/-- Between two consecutive groups the loop formed, the first group followed by
the first token of the second did not measure below `maxWidth`. -/
theorem wrapGroups_chain (m : Str → ℚ) (mw : ℚ) (rest g : List Str)
    (hrest : ∀ t ∈ rest, ' ' ∉ t) :
    List.Chain'
      (fun g1 g2 : List Str => mw ≤ m (joinSpace g1 ++ ' ' :: firstToken (joinSpace g2)))
      (wrapGroups m mw g rest) := by
  induction rest generalizing g with
  | nil => simp [wrapGroups]
  | cons w rest ih =>
    have hw : ' ' ∉ w := hrest w (by simp)
    have hrest' : ∀ t ∈ rest, ' ' ∉ t := fun t ht => hrest t (List.mem_cons_of_mem _ ht)
    simp only [wrapGroups]
    split_ifs with hfit
    · exact ih (g ++ [w]) hrest'
    · obtain ⟨g', tl, hhead⟩ := wrapGroups_head m mw rest [w]
      have hch := ih [w] hrest'
      rw [hhead] at hch ⊢
      refine List.chain'_cons.2 ⟨?_, hch⟩
      rw [List.singleton_append, firstToken_joinSpace_cons w g' hw]
      exact not_lt.1 hfit

/-- C19: the wrap is greedy-maximal: for every text, measure and `maxWidth`,
and every two consecutive lines produced by either copy of the loop, the
measured width of the earlier line followed by a space and the first token of
the later line is at least `maxWidth`; no break is made where the next token
would have fitted strictly below `maxWidth`. -/
theorem wrap_greedy_maximal (measureText : Str → ℚ) (maxWidth : ℚ) (text : Str) :
    List.Chain'
      (fun line next : Str => maxWidth ≤ measureText (line ++ ' ' :: firstToken next))
      (updatePreview_wrap measureText maxWidth text) ∧
    List.Chain'
      (fun line next : Str => maxWidth ≤ measureText (line ++ ' ' :: firstToken next))
      (downloadImage_wrap measureText maxWidth text) := by
  obtain ⟨w0, rest, hs, hw⟩ := updatePreview_wrap_groups measureText maxWidth text
  have hrest : ∀ t ∈ rest, ' ' ∉ t := fun t ht =>
    split_tokens_noSpace text t (by rw [hs]; exact List.mem_cons_of_mem _ ht)
  have hch : List.Chain'
      (fun line next : Str => maxWidth ≤ measureText (line ++ ' ' :: firstToken next))
      (updatePreview_wrap measureText maxWidth text) := by
    rw [hw, List.chain'_map]
    exact wrapGroups_chain measureText maxWidth rest [w0] hrest
  exact ⟨hch, by rw [downloadImage_wrap_eq]; exact hch⟩

/-! ## Further claims on the contrast colour -/

/-- C12 (as stated, refuted): on `#fff`, which is not `#` plus six hexadecimal
digits, the blue channel is `NaN`, so is the brightness, and `getContrastColor`
returns `#FFFFFF` without any error. -/
theorem getContrastColor_short_hex_silent :
    isHexColor "#fff".toList = false ∧
    parseInt16 (substr (utf16 "#fff".toList) 5 2) = none ∧
    getContrastColor_brightness "#fff".toList = none ∧
    getContrastColor "#fff".toList = "#FFFFFF".toList := by
  decide

/-- C12 (amended): `getContrastColor` validates nothing and never fails: for
every colour input, of the six-digit form or not, either the brightness is
`NaN` and it returns `#FFFFFF`, or the brightness is a number `v` and it
returns `#000000` when `v > 128` and `#FFFFFF` otherwise. -/
theorem getContrastColor_total (hexColor : Str) :
    (getContrastColor_brightness hexColor = none ∧
      getContrastColor hexColor = "#FFFFFF".toList) ∨
    (∃ v : ℚ, getContrastColor_brightness hexColor = some v ∧
      getContrastColor hexColor = if v > 128 then "#000000".toList else "#FFFFFF".toList) := by
  unfold getContrastColor
  cases hb : getContrastColor_brightness hexColor with
  | none => exact Or.inl ⟨rfl, rfl⟩
  | some v => exact Or.inr ⟨v, rfl, rfl⟩

/-- C16: `getContrastColor` gives `#FFFFFF` on `#000000` and `#000000` on
`#FFFFFF`; on `#808080` the brightness is exactly 128, which is not above 128,
so the result is `#FFFFFF`. -/
theorem getContrastColor_boundary :
    getContrastColor "#000000".toList = "#FFFFFF".toList ∧
    getContrastColor "#FFFFFF".toList = "#000000".toList ∧
    getContrastColor_brightness "#808080".toList = some 128 ∧
    ¬ ((128 : ℚ) > 128) ∧
    getContrastColor "#808080".toList = "#FFFFFF".toList := by
  have h0 : getContrastColor_brightness "#000000".toList = some 0 := by
    have := getContrastColor_brightness_hex false false false false false false 0 0 0 0 0 0
    simpa [hexChar] using this
  have hF : getContrastColor_brightness "#FFFFFF".toList = some 255 := by
    have := getContrastColor_brightness_hex true true true true true true 15 15 15 15 15 15
    rw [show ("#FFFFFF".toList : Str) = ['#', hexChar true 15, hexChar true 15, hexChar true 15,
      hexChar true 15, hexChar true 15, hexChar true 15] from by decide, this,
      show ((15 : Fin 16) : ℕ) = 15 from rfl]
    norm_num
  have h8 : getContrastColor_brightness "#808080".toList = some 128 := by
    have := getContrastColor_brightness_hex false false false false false false 8 0 8 0 8 0
    rw [show ("#808080".toList : Str) = ['#', hexChar false 8, hexChar false 0, hexChar false 8,
      hexChar false 0, hexChar false 8, hexChar false 0] from by decide, this,
      show ((8 : Fin 16) : ℕ) = 8 from rfl, show ((0 : Fin 16) : ℕ) = 0 from rfl]
    norm_num
  refine ⟨?_, ?_, h8, by norm_num, ?_⟩
  · unfold getContrastColor
    rw [h0]
    norm_num
  · unfold getContrastColor
    rw [hF]
    norm_num
  · unfold getContrastColor
    rw [h8]
    norm_num

/-! ## Further claim on the frame renderer -/

/-- C15: for every frame width `W` with `0 < W ≤ 200` and every style, the
rectangle `drawFrame` strokes has non-negative sides and a positive line width
`W`, and the band of the stroke, reaching `W/2` on each side of its outline,
covers exactly the box from
`(0, 0)` to `(400, 200)`: it lies within the surface and its outer edge is the
surface boundary. -/
theorem drawFrame_stroke_within_surface (ctx : Context) (color : Str) (W : ℚ) (style : Str)
    (hpos : 0 < W) (hle : W ≤ 200) :
    ∃ st : DrawState,
      (drawFrame ctx color W style).ops
        = ctx.ops ++ [DrawOp.strokeRect (W / 2) (W / 2) (400 - W) (200 - W) st] ∧
      0 < st.lineWidth ∧ 0 ≤ 400 - W ∧ 0 ≤ 200 - W ∧
      strokeOuterBox (DrawOp.strokeRect (W / 2) (W / 2) (400 - W) (200 - W) st)
        = some (0, 0, CANVAS_WIDTH, CANVAS_HEIGHT) := by
  obtain ⟨-, -, hw, -, -⟩ := drawFrame_switch_frame (drawFrame_pre ctx W) color W style
  have hlw : (drawFrame_switch (drawFrame_pre ctx W) color W style).state.lineWidth = W := by
    rw [hw]; rfl
  refine ⟨_, by rw [drawFrame_eq], by rw [hlw]; exact hpos, by linarith, by linarith, ?_⟩
  simp only [strokeOuterBox, hlw, CANVAS_WIDTH, CANVAS_HEIGHT, Option.some.injEq, Prod.mk.injEq]
  refine ⟨by ring, by ring, by ring, by ring⟩

/-- Witness for C15: a neon frame of width 5 on a fresh context. -/
theorem drawFrame_stroke_within_surface_witness :
    (0 : ℚ) < 5 ∧ (5 : ℚ) ≤ 200 ∧
    ∃ st : DrawState,
      (drawFrame Context.fresh "#000000".toList 5 "neon".toList).ops
        = Context.fresh.ops ++ [DrawOp.strokeRect (5 / 2) (5 / 2) (400 - 5) (200 - 5) st] ∧
      0 < st.lineWidth ∧ (0 : ℚ) ≤ 400 - 5 ∧ (0 : ℚ) ≤ 200 - 5 ∧
      strokeOuterBox (DrawOp.strokeRect (5 / 2) (5 / 2) (400 - 5) (200 - 5) st)
        = some (0, 0, CANVAS_WIDTH, CANVAS_HEIGHT) :=
  ⟨by norm_num, by norm_num,
    drawFrame_stroke_within_surface Context.fresh "#000000".toList 5 "neon".toList
      (by norm_num) (by norm_num)⟩

/-! ## The end-to-end example -/

theorem updatePreview_wrap_hello_world (m : Str → ℚ) (mw : ℚ) :
    updatePreview_wrap m mw "Hello World".toList
      = if m "Hello World".toList < mw then ["Hello World".toList]
        else ["Hello".toList, "World".toList] := by
  have hs : split "Hello World".toList = ["Hello".toList, "World".toList] := by decide
  have hcat : "Hello".toList ++ ' ' :: "World".toList = "Hello World".toList := by decide
  unfold updatePreview_wrap
  rw [hs]
  simp only [updatePreview_wrapLoop, hcat]
  split_ifs <;> simp

/-- C17: for the request text `Hello World`, font size 32, frame disabled,
format PNG (other controls arbitrary), every measure function and every state
of the preview context: `framePadding = 40` and `maxWidth = 360`; the lines are
`["Hello World"]` when the measured width of `Hello World` is below 360 and
`["Hello", "World"]` otherwise; the ink colour is `#333333`; in the one-line
case the line is drawn at `x = 200`, `y = 100` (line height 38.4), and in the
two-line case the lines are drawn at `y = 80.8` and `y = 119.2`. -/
theorem hello_world_example (measureText : Str → Str → ℚ)
    (fontFamily backgroundColor frameColor : Str) (frameWidth : ℤ) (frameStyle : Str)
    (ctx : Context) :
    let c := helloWorldRequest fontFamily backgroundColor frameColor frameWidth frameStyle
    let p := updatePreview measureText c ctx
    let font := fontString 32 (orElse fontFamily "Inter".toList)
    let ink := Paint.color "#333333".toList
    updatePreview_framePadding c = 40 ∧
    p.maxWidth = CANVAS_WIDTH - updatePreview_framePadding c ∧
    p.maxWidth = 360 ∧
    p.lines = (if measureText font "Hello World".toList < 360 then ["Hello World".toList]
      else ["Hello".toList, "World".toList]) ∧
    p.ctx.state.fillStyle = ink ∧
    textDraws (p.ctx.ops.drop ctx.ops.length) =
      (if measureText font "Hello World".toList < 360 then
        [("Hello World".toList, 200, 100, ink, font, "center".toList, "middle".toList)]
      else
        [("Hello".toList, 200, 80.8, ink, font, "center".toList, "middle".toList),
         ("World".toList, 200, 119.2, ink, font, "center".toList, "middle".toList)]) ∧
    ((32 : ℤ) : ℚ) * 1.2 = 38.4 ∧ ((200 : ℚ) - 1 * 38.4) / 2 + 38.4 / 2 = 100 := by
  intro c p font ink
  have hJ : ¬ ("png".toList = "jpeg".toList) := by decide
  have hne : ("Hello World".toList : Str) ≠ [] := by decide
  have htext : orElse "Hello World".toList "👋 Digite algo!".toList = "Hello World".toList :=
    orElse_of_ne_nil _ _ hne
  have h360 : CANVAS_WIDTH - 40 = 360 := by norm_num [CANVAS_WIDTH]
  refine ⟨rfl, rfl, ?_, ?_, ?_, ?_, by norm_num, by norm_num⟩
  · simp only [p, c, updatePreview, helloWorldRequest, Bool.false_eq_true, if_false, h360]
  · simp only [p, c, font, updatePreview, helloWorldRequest, hJ, htext, Context.clearRect,
      Context.emit, Context.setState, decide_False, Bool.false_eq_true, if_false, h360,
      updatePreview_wrap_hello_world]
  · simp only [p, c, ink, updatePreview, helloWorldRequest, hJ, updatePreview_drawLines_eq,
      Context.clearRect, Context.emit, Context.setState, decide_False, Bool.false_eq_true,
      if_false]
  · simp only [p, c, font, ink, updatePreview, helloWorldRequest, hJ, htext,
      updatePreview_drawLines_eq, Context.clearRect, Context.emit, Context.setState,
      decide_False, Bool.false_eq_true, if_false, h360, updatePreview_wrap_hello_world,
      List.append_assoc, List.drop_left, textDraws_append, textDraws_fillTexts]
    split_ifs <;>
      simp [textDraws, List.enum, List.enumFrom] <;> norm_num

end Emoji
